import Mathlib

/-!
# CPU identification and driver dispatch

A shallow embedding of `src/arch/i386/lib/cpu.c`: the flag probe, the legacy
vendor probes, `identify_cpu`, `set_cpu_ops` and `cpu_initialize`, followed by
the properties established about them.

Conventions of the embedding.

* 32-bit registers are natural numbers; a value read from the hardware is reduced
  modulo `2 ^ 32` where it is read, and the conversion to `int` is explicit.
* The stack buffer `char vendor_name[16]` is a list of bytes (values `0 .. 255`);
  its content on entry is an argument, because the C code does not initialise it.
* Pointers are addresses (natural numbers), `0` being the null pointer.
* `die` does not return: a run that reaches it ends with `Exit.died`.
* The calls a run makes are recorded, in order, in a list of `Event`s.
-/

set_option linter.dupNamespace false

namespace I386Cpu

/-! ## Constants and types that the included headers provide -/

/-- The macros used by `cpu.c` whose defining headers are not part of the source
tree.  Their values are parameters of the development. -/
structure Consts where
  X86_EFLAGS_AC : Nat
  X86_EFLAGS_ID : Nat
  X86_VENDOR_INVALID : Nat
  X86_VENDOR_INTEL : Nat
  X86_VENDOR_CYRIX : Nat
  X86_VENDOR_AMD : Nat
  X86_VENDOR_UMC : Nat
  X86_VENDOR_NEXGEN : Nat
  X86_VENDOR_CENTAUR : Nat
  X86_VENDOR_RISE : Nat
  X86_VENDOR_TRANSMETA : Nat
  X86_VENDOR_NSC : Nat
  X86_VENDOR_SIS : Nat
  X86_VENDOR_UNKNOWN : Nat

/-- The four result registers of one `cpuid` execution (`struct cpuid_result`). -/
structure cpuid_result where
  eax : Nat
  ebx : Nat
  ecx : Nat
  edx : Nat
  deriving DecidableEq, Repr

/-- The fields of `struct device` that `cpu.c` reads or writes.  `apic_id` is
`path.u.apic.apic_id`; `ops` is the address of a `struct device_operations`;
`enabled` and `initialized` are one-bit fields. -/
structure device where
  apic_id : Nat
  vendor : Nat
  device : Nat
  ops : Nat
  enabled : Bool
  initialized : Bool
  deriving DecidableEq, Repr

/-- One entry of a driver's match table (`struct cpu_device_id`). -/
structure cpu_device_id where
  vendor : Nat
  device : Nat
  deriving DecidableEq, Repr

/-- One driver descriptor (`struct cpu_driver`): the address of its operations
table and the memory of its `id_table` array, read from its first entry on. -/
structure cpu_driver where
  ops : Nat
  id_table : List cpu_device_id
  deriving DecidableEq, Repr

/-- The field of `struct device_operations` that `cpu.c` uses: the address of the
`init` entry point. -/
structure device_operations where
  init : Nat
  deriving DecidableEq, Repr

/-- What `cpu_info()` returns for the calling processor: its index and the pointer
to its device record (`none` is the null pointer). -/
structure cpu_info where
  index : Nat
  cpu : Option device
  deriving DecidableEq, Repr

/-! ## The hardware and the environment -/

/-- The state of the processor the probes observe.

* `eflags` is the flags register; `writable` is the set of flag bits (as a mask)
  that the hardware lets a `popfl` change, besides the six arithmetic flags, which
  every processor lets it change.
* `cyrix_eax` is `%eax` after the `sahf; div; lahf` sequence and `cyrix_eflags`
  the flags register it leaves behind.
* `nexgen_zf` is the zero flag after the `divw` of the NexGen probe and
  `nexgen_eflags` the flags register it leaves behind.
* `cpuid_insn` gives the registers after `cpuid` for each leaf.
* `lapic_id` is the value `lapicid()` reads. -/
structure Hw where
  eflags : Nat
  writable : Nat
  cyrix_eax : Nat
  cyrix_eflags : Nat
  nexgen_zf : Bool
  nexgen_eflags : Nat
  cpuid_insn : Nat → cpuid_result
  lapic_id : Nat

/-- What lies outside `cpu.c`: the driver array between the linker symbols
`cpu_drivers` and `ecpu_drivers`, the operations table found at an address, and
the effect on the device record of calling the entry point at an address. -/
structure Env where
  cpu_drivers : List cpu_driver
  ops_at : Nat → device_operations
  call_init : Nat → device → device

/-- The calls made during a run, in program order. -/
inductive Event where
  | printk_notice
  | printk_err
  | printk_debug
  | printk_info
  | lapicid
  | identify_cpu
  | get_fms
  | set_cpu_ops
  | init (fn : Nat) (cpu : device)
  | die (msg : String)
  deriving DecidableEq, Repr

/-- How a run ends: by returning to its caller, in `die`, or by reading an
`id_table` past its last entry (a table without a sentinel). -/
inductive Exit where
  | returned
  | died (msg : String)
  | out_of_bounds
  deriving DecidableEq, Repr

/-- The result of a run: how it ended, the device record at that point and the
calls made. -/
structure Run where
  exit : Exit
  cpu : Option device
  trace : List Event
  deriving DecidableEq, Repr

/-! ## Bytes and buffers -/

/-- The bytes of a C string literal, the terminating NUL included. -/
def cstr (s : String) : List Nat :=
  s.toList.map Char.toNat ++ [0]

/-- The call `memcpy(dst, src, n)`: the first `n` bytes of `dst` are replaced by
those of `src`. -/
def memcpy (dst src : List Nat) (n : Nat) : List Nat :=
  src.take n ++ dst.drop n

/-- The call `memcmp(a, b, n)`: zero when the first `n` bytes agree, otherwise the
difference of the first pair of bytes that differ. -/
def memcmp : List Nat → List Nat → Nat → Int
  | _, _, 0 => 0
  | a :: as, b :: bs, n + 1 => if a = b then memcmp as bs n else (a : Int) - (b : Int)
  | _, _, _ + 1 => 0

/-- Conversion of a 32-bit register value to `int`. -/
def to_int (x : Nat) : Int :=
  if x % 2 ^ 32 < 2 ^ 31 then ((x % 2 ^ 32 : Nat) : Int) else ((x % 2 ^ 32 : Nat) : Int) - 2 ^ 32

/-! ## Flag probe (lines 14-39) -/

/-- The six arithmetic flags of the flags register, as a mask: CF (bit 0),
PF (bit 2), AF (bit 4), ZF (bit 6), SF (bit 7) and OF (bit 11). -/
def arith_flags : Nat :=
  0x8d5

/-- The instruction `popfl` with `v` on top of the stack, when the flags register
holds `cur`: the arithmetic flags and the bits of `writable` take the value they
have in `v`, the others keep the value they have in `cur`. -/
def popfl (writable cur v : Nat) : Nat :=
  cur ^^^ ((cur ^^^ v) &&& (writable ||| arith_flags))

/-- The parity flag for the result `r`: set when the low byte of `r` has an even
number of bits set. -/
def parity_even (r : Nat) : Bool :=
  (r % 2 + r / 2 % 2 + r / 4 % 2 + r / 8 % 2 + r / 16 % 2 + r / 32 % 2 + r / 64 % 2
    + r / 128 % 2) % 2 == 0

/-- The flags register after an `xorl` with the 32-bit result `r`, when it held
`eflags` before: CF and OF are cleared, PF, ZF and SF describe the result, AF is
undefined (`af` is the value the processor gives it), the other bits are
unchanged. -/
def xorl_flags (af : Bool) (eflags r : Nat) : Nat :=
  (eflags ^^^ (eflags &&& arith_flags)) |||
    ((if parity_even r then 0x4 else 0) ||| (if af then 0x10 else 0) |||
      (if r % 2 ^ 32 = 0 then 0x40 else 0) ||| (if 2 ^ 31 ≤ r % 2 ^ 32 then 0x80 else 0))

/-- The function `flag_is_changeable_p`, instruction by instruction, on a
processor whose `xorl` leaves AF at `af`.  The result is the returned truth value
and the flags register after the last `popfl`. -/
def flag_is_changeable_p_af (af : Bool) (writable eflags flag : Nat) : Bool × Nat :=
  let saved := eflags                       -- pushfl
  let f1 := eflags                          -- pushfl; popl %0
  let f2 := f1                              -- movl %0,%1
  let f1 := f1 ^^^ flag                     -- xorl %2,%0
  let eflags := xorl_flags af eflags f1     --   (its write to the arithmetic flags)
  let eflags := popfl writable eflags f1    -- pushl %0; popfl
  let f1 := eflags                          -- pushfl; popl %0
  let eflags := popfl writable eflags saved -- popfl
  (((f1 ^^^ f2) &&& flag) != 0, eflags)

/-- The function `flag_is_changeable_p` on a processor whose `xorl` clears AF (the
value AF takes has no influence, see `flag_is_changeable_p_af_eq`). -/
def flag_is_changeable_p (writable eflags flag : Nat) : Bool × Nat :=
  flag_is_changeable_p_af false writable eflags flag

/-- The function `have_cpuid_p`. -/
def have_cpuid_p (K : Consts) (writable eflags : Nat) : Bool × Nat :=
  flag_is_changeable_p writable eflags K.X86_EFLAGS_ID

/-! ## Legacy probes (lines 51-87) -/

/-- The function `test_cyrix_52div`: the truth value returned and the flags
register after the probe. -/
def test_cyrix_52div (hw : Hw) : Bool × Nat :=
  let test := hw.cyrix_eax % 2 ^ 32
  ((test >>> 8) % 256 == 0x02, hw.cyrix_eflags)

/-- The function `deep_magic_nexgen_probe`: the `int` returned (`%eax` is set to 0,
then to 1 unless `jnz` skips the second move) and the flags register after the
probe. -/
def deep_magic_nexgen_probe (hw : Hw) : Int × Nat :=
  let ret : Int := 0
  let ret := if hw.nexgen_zf then 1 else ret
  (ret, hw.nexgen_eflags)

/-! ## Vendor tables (lines 92-132) -/

/-- The array `x86_vendors`: normalized vendor code and vendor string. -/
def x86_vendors (K : Consts) : List (Nat × List Nat) :=
  [ (K.X86_VENDOR_INTEL,     cstr "GenuineIntel"),
    (K.X86_VENDOR_CYRIX,     cstr "CyrixInstead"),
    (K.X86_VENDOR_AMD,       cstr "AuthenticAMD"),
    (K.X86_VENDOR_UMC,       cstr "UMC UMC UMC "),
    (K.X86_VENDOR_NEXGEN,    cstr "NexGenDriven"),
    (K.X86_VENDOR_CENTAUR,   cstr "CentaurHauls"),
    (K.X86_VENDOR_RISE,      cstr "RiseRiseRise"),
    (K.X86_VENDOR_TRANSMETA, cstr "GenuineTMx86"),
    (K.X86_VENDOR_TRANSMETA, cstr "TransmetaCPU"),
    (K.X86_VENDOR_NSC,       cstr "Geode by NSC"),
    (K.X86_VENDOR_SIS,       cstr "SiS SiS SiS ") ]

/-- The designated initializers of the array `x86_vendor_name`, in source order:
designator and string. -/
def x86_vendor_name_init (K : Consts) : List (Nat × String) :=
  [ (K.X86_VENDOR_INTEL,     "Intel"),
    (K.X86_VENDOR_CYRIX,     "Cyrix"),
    (K.X86_VENDOR_AMD,       "AMD"),
    (K.X86_VENDOR_UMC,       "UMC"),
    (K.X86_VENDOR_NEXGEN,    "NexGen"),
    (K.X86_VENDOR_CENTAUR,   "Centaur"),
    (K.X86_VENDOR_RISE,      "Rise"),
    (K.X86_VENDOR_TRANSMETA, "Transmeta"),
    (K.X86_VENDOR_NSC,       "NSC"),
    (K.X86_VENDOR_SIS,       "SiS") ]

/-- The value of `sizeof(x86_vendor_name)/sizeof(x86_vendor_name[0])`: an array
without a declared size has one element more than its largest designator. -/
def x86_vendor_name_size (K : Consts) : Nat :=
  ((x86_vendor_name_init K).map Prod.fst).foldl max 0 + 1

/-- The array `x86_vendor_name`: element `i` is the string of the last initializer
that designates `i`, and the null pointer (`none`) when no initializer does. -/
def x86_vendor_name (K : Consts) : List (Option String) :=
  (List.range (x86_vendor_name_size K)).map fun i =>
    ((x86_vendor_name_init K).reverse.find? (fun e => decide (e.1 = i))).map Prod.snd

/-- Conversion of an `int` to the 32-bit unsigned type of a `sizeof` expression. -/
def to_unsigned (x : Int) : Nat :=
  (x % 2 ^ 32).toNat

/-- The function `cpu_vendor_name`.  The bound test compares `vendor` as an
unsigned value; the element read is `x86_vendor_name[vendor]`. -/
def cpu_vendor_name (K : Consts) (vendor : Int) : String :=
  let name := "<invalid cpu vendor>"
  if to_unsigned vendor < x86_vendor_name_size K then
    match (x86_vendor_name K)[vendor.toNat]? with
    | some (some s) => s
    | _ => name
  else name

/-! ## identify_cpu (lines 134-194) -/

/-- The instruction `cpuid` for leaf `op`: four 32-bit registers. -/
def cpuid (hw : Hw) (op : Nat) : cpuid_result :=
  let r := hw.cpuid_insn op
  { eax := r.eax % 2 ^ 32, ebx := r.ebx % 2 ^ 32, ecx := r.ecx % 2 ^ 32, edx := r.edx % 2 ^ 32 }

/-- The helper `cpuid_eax`: the `eax` result of leaf `op`. -/
def cpuid_eax (hw : Hw) (op : Nat) : Nat :=
  (cpuid hw op).eax

/-- The loop of lines 188-193 over the entries of `x86_vendors` not yet visited;
`vendor` is the value `cpu->vendor` holds before the loop (line 187). -/
def vendor_loop (vendor_name : List Nat) : List (Nat × List Nat) → Nat → Nat
  | [], vendor => vendor
  | e :: rest, vendor =>
    if memcmp vendor_name e.2 12 = 0 then e.1 else vendor_loop vendor_name rest vendor

/-- The local variables of `identify_cpu`, the device record and the flags
register. -/
structure IdentifyState where
  vendor_name : List Nat
  cpuid_level : Int
  cpu : device
  eflags : Nat

/-- Lines 144-159 of `identify_cpu`: the branch taken when `have_cpuid_p()`
returned false; `st.eflags` is the flags register that call left. -/
def identify_legacy (K : Consts) (hw : Hw) (st : IdentifyState) : IdentifyState :=
  let ac := flag_is_changeable_p hw.writable st.eflags K.X86_EFLAGS_AC
  let cpu : device :=
    if ac.1 then { st.cpu with device := 0x00000400 } else { st.cpu with device := 0x00000300 }
  -- (cpu->device == 0x00000400) && test_cyrix_52div()
  let cyrix : Bool × Nat :=
    if cpu.device = 0x00000400 then test_cyrix_52div hw else (false, ac.2)
  if cyrix.1 then
    { st with vendor_name := memcpy st.vendor_name (cstr "CyrixInstead") 13,
              cpu := cpu, eflags := cyrix.2 }
  else
    let nexgen := deep_magic_nexgen_probe hw
    if nexgen.1 ≠ 0 then
      { st with vendor_name := memcpy st.vendor_name (cstr "NexGenDriven") 13,
                cpu := cpu, eflags := nexgen.2 }
    else
      { st with cpu := cpu, eflags := nexgen.2 }

/-- Lines 161-185 of `identify_cpu`: the branch taken when the second
`have_cpuid_p()` returned true. -/
def identify_cpuid (hw : Hw) (st : IdentifyState) : IdentifyState :=
  let result := cpuid hw 0x00000000
  let cpuid_level := to_int result.eax
  let vendor_name := st.vendor_name
  let vendor_name := vendor_name.set 0 ((result.ebx >>> 0) &&& 0xff)
  let vendor_name := vendor_name.set 1 ((result.ebx >>> 8) &&& 0xff)
  let vendor_name := vendor_name.set 2 ((result.ebx >>> 16) &&& 0xff)
  let vendor_name := vendor_name.set 3 ((result.ebx >>> 24) &&& 0xff)
  let vendor_name := vendor_name.set 4 ((result.edx >>> 0) &&& 0xff)
  let vendor_name := vendor_name.set 5 ((result.edx >>> 8) &&& 0xff)
  let vendor_name := vendor_name.set 6 ((result.edx >>> 16) &&& 0xff)
  let vendor_name := vendor_name.set 7 ((result.edx >>> 24) &&& 0xff)
  let vendor_name := vendor_name.set 8 ((result.ecx >>> 0) &&& 0xff)
  let vendor_name := vendor_name.set 9 ((result.ecx >>> 8) &&& 0xff)
  let vendor_name := vendor_name.set 10 ((result.ecx >>> 16) &&& 0xff)
  let vendor_name := vendor_name.set 11 ((result.ecx >>> 24) &&& 0xff)
  let vendor_name := vendor_name.set 12 0
  let cpu : device :=
    if cpuid_level ≥ 0x00000001 then { st.cpu with device := cpuid_eax hw 0x00000001 }
    else { st.cpu with device := 0x00000400 }
  { st with vendor_name := vendor_name, cpuid_level := cpuid_level, cpu := cpu }

/-- Lines 136-186 of `identify_cpu`: everything before the vendor code is
assigned.  `vendor_name` is the content of the stack buffer on entry. -/
def identify_probe (K : Consts) (hw : Hw) (vendor_name : List Nat) (cpu : device) :
    IdentifyState :=
  let st : IdentifyState :=
    { vendor_name := vendor_name.set 0 0, cpuid_level := -1, cpu := cpu, eflags := hw.eflags }
  let have1 := have_cpuid_p K hw.writable st.eflags
  let st := { st with eflags := have1.2 }
  let st := if !have1.1 then identify_legacy K hw st else st
  let have2 := have_cpuid_p K hw.writable st.eflags
  let st := { st with eflags := have2.2 }
  if have2.1 then identify_cpuid hw st else st

/-- The function `identify_cpu`: the device record it leaves. -/
def identify_cpu (K : Consts) (hw : Hw) (vendor_name : List Nat) (cpu : device) : device :=
  let st := identify_probe K hw vendor_name cpu
  let cpu := { st.cpu with vendor := K.X86_VENDOR_UNKNOWN }
  { cpu with vendor := vendor_loop st.vendor_name (x86_vendors K) cpu.vendor }

/-! ## set_cpu_ops (lines 196-214) -/

/-- How the inner loop of `set_cpu_ops` leaves one `id_table`. -/
inductive Scan where
  | found
  | sentinel
  | overrun
  deriving DecidableEq, Repr

/-- The inner loop of `set_cpu_ops` (lines 202-208) over the memory of one
`id_table`. -/
def scan_id_table (K : Consts) (cpu : device) : List cpu_device_id → Scan
  | [] => Scan.overrun
  | id :: rest =>
    if id.vendor ≠ K.X86_VENDOR_INVALID then
      if cpu.vendor = id.vendor ∧ cpu.device = id.device then Scan.found
      else scan_id_table K cpu rest
    else Scan.sentinel

/-- How the outer loop of `set_cpu_ops` ends: with `goto found` at a driver, at
`ecpu_drivers`, or with a read past the end of an `id_table`. -/
inductive Search where
  | found (driver : cpu_driver)
  | exhausted
  | overrun
  deriving DecidableEq, Repr

/-- The outer loop of `set_cpu_ops` (lines 200-209). -/
def find_driver (K : Consts) (cpu : device) : List cpu_driver → Search
  | [] => Search.exhausted
  | driver :: rest =>
    match scan_id_table K cpu driver.id_table with
    | Scan.found => Search.found driver
    | Scan.sentinel => find_driver K cpu rest
    | Scan.overrun => Search.overrun

/-- The function `set_cpu_ops`. -/
def set_cpu_ops (K : Consts) (cpu_drivers : List cpu_driver) (cpu : device) : Run :=
  let cpu := { cpu with ops := 0 }
  match find_driver K cpu cpu_drivers with
  | Search.found driver =>
    { exit := Exit.returned, cpu := some { cpu with ops := driver.ops }, trace := [] }
  | Search.exhausted =>
    { exit := Exit.died "Unknown cpu", cpu := some cpu, trace := [Event.die "Unknown cpu"] }
  | Search.overrun =>
    { exit := Exit.out_of_bounds, cpu := some cpu, trace := [] }

/-! ## cpu_initialize (lines 216-272) -/

/-- The function `lapicid`. -/
def lapicid (hw : Hw) : Nat :=
  hw.lapic_id

/-- The calls lines 247-257 of `cpu_initialize` make, up to and including
`set_cpu_ops`. -/
def body_calls : List Event :=
  [Event.identify_cpu, Event.printk_debug, Event.get_fms, Event.printk_debug, Event.set_cpu_ops]

/-- Lines 246-266 of `cpu_initialize`: the work done on the record `cpu` once the
topology guard has passed (or is compiled out). -/
def cpu_initialize_body (K : Consts) (env : Env) (hw : Hw) (vendor_name : List Nat)
    (cpu : device) : Run :=
  let cpu := identify_cpu K hw vendor_name cpu
  let trace := body_calls
  let r := set_cpu_ops K env.cpu_drivers cpu
  match r.exit, r.cpu with
  | Exit.returned, some cpu =>
    if cpu.ops ≠ 0 ∧ (env.ops_at cpu.ops).init ≠ 0 then
      let cpu := { cpu with enabled := true }
      let cpu := { cpu with initialized := true }
      let fn := (env.ops_at cpu.ops).init
      { exit := Exit.returned, cpu := some (env.call_init fn cpu),
        trace := trace ++ r.trace ++ [Event.init fn cpu, Event.printk_info] }
    else
      { exit := Exit.returned, cpu := some cpu, trace := trace ++ r.trace ++ [Event.printk_info] }
  | e, c => { exit := e, cpu := c, trace := trace ++ r.trace }

/-- The function `cpu_initialize`.  `smp` is the build condition
`CONFIG_SMP || CONFIG_IOPIC`, `info` what `cpu_info()` returns and `vendor_name`
the content of the stack buffer of `identify_cpu` on entry. -/
def cpu_initialize (K : Consts) (smp : Bool) (env : Env) (hw : Hw) (vendor_name : List Nat)
    (info : cpu_info) : Run :=
  let trace := [Event.printk_notice]
  match info.cpu with
  | none =>
    { exit := Exit.died "CPU: missing cpu device structure", cpu := none,
      trace := trace ++ [Event.die "CPU: missing cpu device structure"] }
  | some cpu =>
    if smp then
      if cpu.apic_id ≠ lapicid hw then
        { exit := Exit.returned, cpu := some cpu,
          trace := trace ++ [Event.lapicid, Event.lapicid, Event.printk_err] }
      else
        let r := cpu_initialize_body K env hw vendor_name cpu
        { r with trace := trace ++ [Event.lapicid] ++ r.trace }
    else
      let r := cpu_initialize_body K env hw vendor_name cpu
      { r with trace := trace ++ r.trace }

/-! ## Predicates used to state the properties -/

/-- The values of the macros in the coreboot headers, used for the concrete
examples. -/
def sample_consts : Consts where
  X86_EFLAGS_AC := 0x00040000
  X86_EFLAGS_ID := 0x00200000
  X86_VENDOR_INVALID := 0
  X86_VENDOR_INTEL := 1
  X86_VENDOR_CYRIX := 2
  X86_VENDOR_AMD := 3
  X86_VENDOR_UMC := 4
  X86_VENDOR_NEXGEN := 5
  X86_VENDOR_CENTAUR := 6
  X86_VENDOR_RISE := 7
  X86_VENDOR_TRANSMETA := 8
  X86_VENDOR_NSC := 9
  X86_VENDOR_SIS := 10
  X86_VENDOR_UNKNOWN := 0xff

/-- The entries of an `id_table` that precede its first sentinel entry. -/
def before_sentinel (K : Consts) (id_table : List cpu_device_id) : List cpu_device_id :=
  id_table.takeWhile (fun id => decide (id.vendor ≠ K.X86_VENDOR_INVALID))

/-- The table has, before its sentinel, an entry equal to the identity
`(vendor, device)` in both fields. -/
def has_match (K : Consts) (vendor dev : Nat) (id_table : List cpu_device_id) : Bool :=
  (before_sentinel K id_table).any (fun id => decide (id.vendor = vendor ∧ id.device = dev))

/-- The table is terminated by a sentinel entry. -/
def terminated (K : Consts) (id_table : List cpu_device_id) : Bool :=
  id_table.any (fun id => decide (id.vendor = K.X86_VENDOR_INVALID))

/-- Every descriptor of the registry has a sentinel-terminated match table. -/
def registry_ok (K : Consts) (cpu_drivers : List cpu_driver) : Prop :=
  ∀ d ∈ cpu_drivers, terminated K d.id_table = true

instance (K : Consts) (cpu_drivers : List cpu_driver) : Decidable (registry_ok K cpu_drivers) := by
  unfold registry_ok; infer_instance

/-- A processor for the concrete examples: `writable` is the mask of flag bits it
lets software change, leaf 0 of `cpuid` reports the maximum leaf `leaf0_eax` and the
vendor string "GenuineIntel", leaf 1 reports the signature `0x00000673`. -/
def sample_hw (writable leaf0_eax cyrix_eax : Nat) (nexgen_zf : Bool) : Hw where
  eflags := 0x00000002
  writable := writable
  cyrix_eax := cyrix_eax
  cyrix_eflags := 0x00000046
  nexgen_zf := nexgen_zf
  nexgen_eflags := 0x00000002
  cpuid_insn := fun op =>
    if op = 0 then ⟨leaf0_eax, 0x756e6547, 0x6c65746e, 0x49656e69⟩
    else if op = 1 then ⟨0x00000673, 0, 0x00000001, 0x0383f9ff⟩
    else ⟨0, 0, 0, 0⟩
  lapic_id := 0

/-- A device record for the concrete examples, with stale identification fields. -/
def sample_device : device :=
  { apic_id := 0, vendor := 7, device := 0x12345, ops := 77, enabled := false,
    initialized := false }

/-- A stack buffer for the concrete examples: sixteen bytes of leftover data. -/
def sample_buffer : List Nat :=
  [0x47, 0xcc, 0xcc, 0xcc, 0xcc, 0xcc, 0xcc, 0xcc, 0xcc, 0xcc, 0xcc, 0xcc, 0xcc, 0xcc, 0xcc, 0xcc]

/-- An environment for the concrete examples: two drivers, the second of which
lists the signature `0x00000673` of vendor 1; its operations table at `0x1000` has
the init entry point `0x2000`, which leaves the record as it is. -/
def sample_env : Env where
  cpu_drivers :=
    [ { ops := 0x1800, id_table := [⟨3, 0x00000673⟩, ⟨3, 0x00000680⟩, ⟨0, 0⟩] },
      { ops := 0x1000, id_table := [⟨1, 0x00000650⟩, ⟨1, 0x00000673⟩, ⟨0, 0⟩] } ]
  ops_at := fun a => if a = 0x1000 then ⟨0x2000⟩ else ⟨0⟩
  call_init := fun _ d => d

/-- An environment for the concrete examples whose only driver lists no signature
of vendor 1. -/
def sample_env_no_driver : Env where
  cpu_drivers := [ { ops := 0x1800, id_table := [⟨3, 0x00000673⟩, ⟨0, 0⟩, ⟨1, 0x00000673⟩] } ]
  ops_at := fun _ => ⟨0x2000⟩
  call_init := fun _ d => d

/-- Dispatch found a match for the identity of `id` and the operations pointer of
`bound` is non-null with a non-null `init` entry point. -/
def dispatch_has_init (K : Consts) (env : Env) (id bound : device) : Prop :=
  (∃ d ∈ env.cpu_drivers, has_match K id.vendor id.device d.id_table = true) ∧
    bound.ops ≠ 0 ∧ (env.ops_at bound.ops).init ≠ 0

instance (K : Consts) (env : Env) (id bound : device) :
    Decidable (dispatch_has_init K env id bound) := by
  unfold dispatch_has_init; infer_instance

/-- The assumptions on the vendor macros under which the display-name table is
read: the ten designators are pairwise distinct, the array has at most `2 ^ 30`
elements (its pointers fit a 32-bit address space), and `X86_VENDOR_UNKNOWN` is an
`int` value that is none of the designators. -/
def vendor_codes_ok (K : Consts) : Prop :=
  ((x86_vendor_name_init K).map Prod.fst).Nodup ∧
    x86_vendor_name_size K ≤ 2 ^ 30 ∧
    K.X86_VENDOR_UNKNOWN ∉ (x86_vendor_name_init K).map Prod.fst ∧
    K.X86_VENDOR_UNKNOWN < 2 ^ 31

instance (K : Consts) : Decidable (vendor_codes_ok K) := by
  unfold vendor_codes_ok; infer_instance

/-- Lines 140-159 of `identify_cpu`: the state in which the second
`have_cpuid_p()` call (line 160) is made. -/
def identify_before_second_probe (K : Consts) (hw : Hw) (vendor_name : List Nat)
    (cpu : device) : IdentifyState :=
  let st : IdentifyState :=
    { vendor_name := vendor_name.set 0 0, cpuid_level := -1, cpu := cpu, eflags := hw.eflags }
  let have1 := have_cpuid_p K hw.writable st.eflags
  let st := { st with eflags := have1.2 }
  if !have1.1 then identify_legacy K hw st else st

/-- The four bytes of a 32-bit word, least significant first: byte `j` is bits
`8 * j` to `8 * j + 7`. -/
def le_bytes (x : Nat) : List Nat :=
  [x / 2 ^ 0 % 256, x / 2 ^ 8 % 256, x / 2 ^ 16 % 256, x / 2 ^ 24 % 256]

/-- The 32-bit word whose bytes, least significant first, are `b0 b1 b2 b3`. -/
def le32 (b0 b1 b2 b3 : Nat) : Nat :=
  b0 + b1 * 2 ^ 8 + b2 * 2 ^ 16 + b3 * 2 ^ 24

/-- The event is the call of an init entry point. -/
def is_init : Event → Bool
  | Event.init _ _ => true
  | _ => false

/-- What the probes of `identify_cpu` return on a processor: the two flag probes,
the two legacy probes, the leaf-0 result and the `eax` result of leaf 1. -/
structure ProbeOutcome where
  have_cpuid : Bool
  ac_changeable : Bool
  cyrix : Bool
  nexgen : Int
  leaf0 : cpuid_result
  leaf1_eax : Nat
  deriving DecidableEq, Repr

/-- The probe results of the processor `hw`. -/
def probe_outcome (K : Consts) (hw : Hw) : ProbeOutcome :=
  { have_cpuid := (have_cpuid_p K hw.writable hw.eflags).1,
    ac_changeable := (flag_is_changeable_p hw.writable hw.eflags K.X86_EFLAGS_AC).1,
    cyrix := (test_cyrix_52div hw).1,
    nexgen := (deep_magic_nexgen_probe hw).1,
    leaf0 := cpuid hw 0,
    leaf1_eax := cpuid_eax hw 1 }

/-- The environment `sample_env` with an init entry point that clears the `enabled`
flag of the record it receives. -/
def sample_env_clearing : Env where
  cpu_drivers := sample_env.cpu_drivers
  ops_at := sample_env.ops_at
  call_init := fun _ d => { d with enabled := false }

/-! ## Lemmas: buffers -/

theorem memcmp_eq_zero_iff (n : Nat) : ∀ (a b : List Nat), n ≤ a.length → n ≤ b.length →
    (memcmp a b n = 0 ↔ a.take n = b.take n) := by
  induction n with
  | zero => intro a b _ _; simp [memcmp]
  | succ n ih =>
    intro a b ha hb
    cases a with
    | nil => simp at ha
    | cons x xs =>
      cases b with
      | nil => simp at hb
      | cons y ys =>
        simp only [List.length_cons, Nat.add_le_add_iff_right] at ha hb
        by_cases hxy : x = y
        · subst hxy
          simp [memcmp, ih xs ys ha hb]
        · have hne : (x : Int) - (y : Int) ≠ 0 := by omega
          simp [memcmp, hxy, hne]

theorem vendor_loop_no_match (vendor_name : List Nat) (v : Nat) :
    ∀ (tbl : List (Nat × List Nat)), (∀ e ∈ tbl, memcmp vendor_name e.2 12 ≠ 0) →
      vendor_loop vendor_name tbl v = v := by
  intro tbl
  induction tbl with
  | nil => intro _; rfl
  | cons e rest ih =>
    intro h
    have h1 : memcmp vendor_name e.2 12 ≠ 0 := h e (List.mem_cons_self _ _)
    simp only [vendor_loop, h1, if_false]
    exact ih (fun e' he' => h e' (List.mem_cons_of_mem _ he'))

theorem vendor_loop_unique_match (vendor_name : List Nat) (v : Nat) :
    ∀ (tbl : List (Nat × List Nat)) (e : Nat × List Nat), e ∈ tbl →
      memcmp vendor_name e.2 12 = 0 →
      (∀ e' ∈ tbl, memcmp vendor_name e'.2 12 = 0 → e'.1 = e.1) →
      vendor_loop vendor_name tbl v = e.1 := by
  intro tbl
  induction tbl with
  | nil => intro e he; simp at he
  | cons x rest ih =>
    intro e he hz huniq
    by_cases hx : memcmp vendor_name x.2 12 = 0
    · simp only [vendor_loop, hx, if_true]
      exact huniq x (List.mem_cons_self _ _) hx
    · simp only [vendor_loop, hx, if_false]
      have he' : e ∈ rest := by
        rcases List.mem_cons.mp he with h | h
        · subst h; exact absurd hz hx
        · exact h
      exact ih e he' hz (fun e' h' hz' => huniq e' (List.mem_cons_of_mem _ h') hz')

theorem x86_vendors_names_distinct (K : Consts) :
    (x86_vendors K).Pairwise (fun a b => a.2.take 12 ≠ b.2.take 12) := by
  simp only [x86_vendors, List.pairwise_cons, List.mem_cons, List.mem_singleton, forall_eq_or_imp,
    forall_eq, List.not_mem_nil, false_imp_iff, implies_true, and_true, List.Pairwise.nil]
  repeat' apply And.intro
  all_goals decide

theorem x86_vendors_names_length (K : Consts) : ∀ e ∈ x86_vendors K, 12 ≤ e.2.length := by
  simp only [x86_vendors, List.mem_cons, List.mem_singleton, forall_eq_or_imp, forall_eq]
  decide

theorem pairwise_names_unique {tbl : List (Nat × List Nat)}
    (hp : tbl.Pairwise (fun a b => a.2.take 12 ≠ b.2.take 12)) :
    ∀ a ∈ tbl, ∀ b ∈ tbl, a.2.take 12 = b.2.take 12 → a = b := by
  induction hp with
  | nil => intro a ha; simp at ha
  | cons hx _ ih =>
    intro a ha b hb hab
    rcases List.mem_cons.mp ha with h1 | h1 <;> rcases List.mem_cons.mp hb with h2 | h2
    · rw [h1, h2]
    · subst h1; exact absurd hab (hx b h2)
    · subst h2; exact absurd hab.symm (hx a h1)
    · exact ih a h1 b h2 hab

/-! ## Vendor normalization -/

/-- C1. Vendor normalization (lines 187-193): the vendor code `identify_cpu` stores
is the result of the table loop started with `X86_VENDOR_UNKNOWN`; for every
12-byte string `s` at the start of the buffer, the loop yields the code paired
with `s` in `x86_vendors` when `s` is one of the table strings (all 12 bytes equal)
and `X86_VENDOR_UNKNOWN` when `s` is none of them. -/
theorem vendor_normalization (K : Consts) (s rest : List Nat) (hs : s.length = 12) :
    (∀ (hw : Hw) (buf : List Nat) (cpu : device),
      (identify_cpu K hw buf cpu).vendor =
        vendor_loop (identify_probe K hw buf cpu).vendor_name (x86_vendors K)
          K.X86_VENDOR_UNKNOWN) ∧
    (∀ e ∈ x86_vendors K, s = e.2.take 12 →
      vendor_loop (s ++ rest) (x86_vendors K) K.X86_VENDOR_UNKNOWN = e.1) ∧
    ((∀ e ∈ x86_vendors K, s ≠ e.2.take 12) →
      vendor_loop (s ++ rest) (x86_vendors K) K.X86_VENDOR_UNKNOWN = K.X86_VENDOR_UNKNOWN) := by
  have hlen : 12 ≤ (s ++ rest).length := by simp [hs]
  have htake : (s ++ rest).take 12 = s := by
    rw [List.take_append_of_le_length (by omega)]
    exact List.take_of_length_le (by omega)
  have hcmp : ∀ e ∈ x86_vendors K, (memcmp (s ++ rest) e.2 12 = 0 ↔ s = e.2.take 12) := by
    intro e he
    rw [memcmp_eq_zero_iff 12 _ _ hlen (x86_vendors_names_length K e he), htake]
  refine ⟨fun _ _ _ => rfl, ?_, ?_⟩
  · intro e he hse
    apply vendor_loop_unique_match _ _ _ e he ((hcmp e he).mpr hse)
    intro e' he' hz
    have h1 : s = e'.2.take 12 := (hcmp e' he').mp hz
    have h2 : e' = e :=
      pairwise_names_unique (x86_vendors_names_distinct K) e' he' e he (h1.symm.trans hse)
    rw [h2]
  · intro hne
    apply vendor_loop_no_match
    intro e he hz
    exact hne e he ((hcmp e he).mp hz)

/-- Witness for `vendor_normalization`: the buffer that starts with "AuthenticAMD". -/
theorem vendor_normalization_witness :
    vendor_loop ((cstr "AuthenticAMD").take 12 ++ [0, 0, 0, 0]) (x86_vendors sample_consts)
      sample_consts.X86_VENDOR_UNKNOWN = 3 :=
  (vendor_normalization sample_consts ((cstr "AuthenticAMD").take 12) [0, 0, 0, 0]
    (by decide)).2.1 (3, cstr "AuthenticAMD") (by decide) (by decide)

/-! ## Lemmas: the flag probe -/

/-- The value the instruction `xorl` gives the arithmetic flags sets no other bit. -/
theorem xorl_flags_testBit (af : Bool) (eflags r i : Nat)
    (h : arith_flags.testBit i = false) :
    (xorl_flags af eflags r).testBit i = eflags.testBit i := by
  have hc : ∀ c : Nat, c &&& arith_flags = c → c.testBit i = false := by
    intro c hcc
    rw [← hcc, Nat.testBit_and, h, Bool.and_false]
  have hbits : ((if parity_even r then 0x4 else 0) ||| (if af then 0x10 else 0) |||
      (if r % 2 ^ 32 = 0 then 0x40 else 0) ||| (if 2 ^ 31 ≤ r % 2 ^ 32 then 0x80 else 0) :
        Nat).testBit i = false := by
    apply hc
    split_ifs <;> decide
  simp only [xorl_flags, Nat.testBit_or, Nat.testBit_xor, Nat.testBit_and, h, hbits,
    Bool.and_false, Bool.xor_false, Bool.or_false]

/-- The `popfl` that follows the `xorl` overwrites what the `xorl` did to the
flags register. -/
theorem popfl_after_xorl (af : Bool) (writable eflags r v : Nat) :
    popfl writable (xorl_flags af eflags r) v = popfl writable eflags v := by
  apply Nat.eq_of_testBit_eq
  intro i
  simp only [popfl, Nat.testBit_xor, Nat.testBit_and, Nat.testBit_or]
  cases ha : arith_flags.testBit i
  · rw [xorl_flags_testBit af eflags r i ha]
  · cases (xorl_flags af eflags r).testBit i <;> cases eflags.testBit i <;>
      cases v.testBit i <;> cases writable.testBit i <;> rfl

/-- What `flag_is_changeable_p` computes, whatever value `xorl` gives AF. -/
theorem flag_is_changeable_p_af_eq (af : Bool) (writable eflags flag : Nat) :
    flag_is_changeable_p_af af writable eflags flag =
      ((((flag &&& (writable ||| arith_flags)) &&& flag) != 0), eflags) := by
  simp only [flag_is_changeable_p_af, popfl_after_xorl]
  simp only [popfl, Nat.xor_cancel_left]
  rw [Nat.xor_comm eflags (flag &&& (writable ||| arith_flags)), Nat.xor_cancel_right,
    Nat.and_assoc (flag) (writable ||| arith_flags) (writable ||| arith_flags), Nat.and_self,
    Nat.xor_comm (flag &&& (writable ||| arith_flags)) eflags, Nat.xor_cancel_right]

theorem flag_is_changeable_p_fst (writable eflags flag : Nat) :
    (flag_is_changeable_p writable eflags flag).1 =
      (((flag &&& (writable ||| arith_flags)) &&& flag) != 0) := by
  rw [flag_is_changeable_p, flag_is_changeable_p_af_eq]

theorem flag_is_changeable_p_snd (writable eflags flag : Nat) :
    (flag_is_changeable_p writable eflags flag).2 = eflags := by
  rw [flag_is_changeable_p, flag_is_changeable_p_af_eq]

theorem have_cpuid_p_fst_indep (K : Consts) (writable eflags eflags' : Nat) :
    (have_cpuid_p K writable eflags).1 = (have_cpuid_p K writable eflags').1 := by
  simp only [have_cpuid_p, flag_is_changeable_p_fst]

theorem have_cpuid_p_snd (K : Consts) (writable eflags : Nat) :
    (have_cpuid_p K writable eflags).2 = eflags := by
  simp only [have_cpuid_p, flag_is_changeable_p_snd]

/-! ## Lemmas: identify_cpu -/

/-- The state in which the probes of `identify_cpu` start. -/
theorem identify_probe_of_cpuid (K : Consts) (hw : Hw) (buf : List Nat) (cpu : device)
    (h : (have_cpuid_p K hw.writable hw.eflags).1 = true) :
    identify_probe K hw buf cpu =
      identify_cpuid hw
        { vendor_name := buf.set 0 0, cpuid_level := -1, cpu := cpu, eflags := hw.eflags } := by
  simp only [identify_probe, h, have_cpuid_p_snd, Bool.not_true, Bool.false_eq_true, if_false,
    if_true]

theorem identify_probe_of_no_cpuid (K : Consts) (hw : Hw) (buf : List Nat) (cpu : device)
    (h : (have_cpuid_p K hw.writable hw.eflags).1 = false) :
    identify_probe K hw buf cpu =
      identify_legacy K hw
        { vendor_name := buf.set 0 0, cpuid_level := -1, cpu := cpu, eflags := hw.eflags } := by
  have h2 : ∀ f, (have_cpuid_p K hw.writable f).1 = false := fun f =>
    (have_cpuid_p_fst_indep K hw.writable f hw.eflags).trans h
  simp only [identify_probe, h, h2, have_cpuid_p_snd, Bool.not_false, Bool.false_eq_true,
    if_false, if_true]

/-! ## Lemmas: set_cpu_ops -/

theorem scan_id_table_eq (K : Consts) (cpu : device) (id_table : List cpu_device_id) :
    scan_id_table K cpu id_table =
      if has_match K cpu.vendor cpu.device id_table = true then Scan.found
      else if terminated K id_table = true then Scan.sentinel else Scan.overrun := by
  induction id_table with
  | nil => simp [scan_id_table, has_match, before_sentinel, terminated]
  | cons id rest ih =>
    by_cases hs : id.vendor = K.X86_VENDOR_INVALID
    · simp [scan_id_table, has_match, before_sentinel, terminated, hs]
    · by_cases hm : cpu.vendor = id.vendor ∧ cpu.device = id.device
      · have hfound : has_match K cpu.vendor cpu.device (id :: rest) = true := by
          have htw : List.takeWhile (fun x : cpu_device_id =>
              decide (x.vendor ≠ K.X86_VENDOR_INVALID)) (id :: rest) =
              id :: List.takeWhile (fun x : cpu_device_id =>
                decide (x.vendor ≠ K.X86_VENDOR_INVALID)) rest :=
            List.takeWhile_cons_of_pos (by simpa using hs)
          simp only [has_match, before_sentinel, htw, List.any_cons, hm.1.symm, hm.2.symm,
            and_self, decide_True, Bool.true_or]
        rw [hfound]
        simp only [scan_id_table, ne_eq, hs, not_false_eq_true, if_true, hm, and_self]
      · have hm' : ¬ (id.vendor = cpu.vendor ∧ id.device = cpu.device) :=
          fun h => hm ⟨h.1.symm, h.2.symm⟩
        have hrest : has_match K cpu.vendor cpu.device (id :: rest) =
            has_match K cpu.vendor cpu.device rest := by
          simp [has_match, before_sentinel, hs, hm']
        have hterm : terminated K (id :: rest) = terminated K rest := by
          simp [terminated, hs]
        rw [hrest, hterm, ← ih]
        simp [scan_id_table, hs, hm]

theorem find_driver_no_match (K : Consts) (cpu : device) :
    ∀ (drivers : List cpu_driver), registry_ok K drivers →
      (∀ d ∈ drivers, has_match K cpu.vendor cpu.device d.id_table = false) →
      find_driver K cpu drivers = Search.exhausted := by
  intro drivers
  induction drivers with
  | nil => intro _ _; rfl
  | cons d rest ih =>
    intro hok hno
    have h1 : has_match K cpu.vendor cpu.device d.id_table = false := hno d (List.mem_cons_self _ _)
    have h2 : terminated K d.id_table = true := hok d (List.mem_cons_self _ _)
    have h3 : scan_id_table K cpu d.id_table = Scan.sentinel := by
      rw [scan_id_table_eq]; simp [h1, h2]
    simp only [find_driver, h3]
    exact ih (fun x hx => hok x (List.mem_cons_of_mem _ hx))
      (fun x hx => hno x (List.mem_cons_of_mem _ hx))

theorem find_driver_first_match (K : Consts) (cpu : device) (a : cpu_driver)
    (post : List cpu_driver) (ha : has_match K cpu.vendor cpu.device a.id_table = true) :
    ∀ (pre : List cpu_driver), registry_ok K pre →
      (∀ d ∈ pre, has_match K cpu.vendor cpu.device d.id_table = false) →
      find_driver K cpu (pre ++ a :: post) = Search.found a := by
  intro pre
  induction pre with
  | nil =>
    intro _ _
    have h3 : scan_id_table K cpu a.id_table = Scan.found := by
      rw [scan_id_table_eq]; simp [ha]
    simp only [List.nil_append, find_driver, h3]
  | cons d rest ih =>
    intro hok hno
    have h1 : has_match K cpu.vendor cpu.device d.id_table = false := hno d (List.mem_cons_self _ _)
    have h2 : terminated K d.id_table = true := hok d (List.mem_cons_self _ _)
    have h3 : scan_id_table K cpu d.id_table = Scan.sentinel := by
      rw [scan_id_table_eq]; simp [h1, h2]
    simp only [List.cons_append, find_driver, h3]
    exact ih (fun x hx => hok x (List.mem_cons_of_mem _ hx))
      (fun x hx => hno x (List.mem_cons_of_mem _ hx))

/-- A list with an element satisfying `p` splits at the first such element. -/
theorem first_split {α : Type} (p : α → Bool) :
    ∀ (l : List α), (∃ x ∈ l, p x = true) →
      ∃ pre x post, l = pre ++ x :: post ∧ p x = true ∧ ∀ y ∈ pre, p y = false := by
  intro l
  induction l with
  | nil => intro h; obtain ⟨x, hx, _⟩ := h; simp at hx
  | cons a rest ih =>
    intro h
    by_cases ha : p a = true
    · exact ⟨[], a, rest, rfl, ha, by simp⟩
    · have hrest : ∃ x ∈ rest, p x = true := by
        obtain ⟨x, hx, hpx⟩ := h
        rcases List.mem_cons.mp hx with h1 | h1
        · subst h1; exact absurd hpx ha
        · exact ⟨x, h1, hpx⟩
      obtain ⟨pre, x, post, hl, hpx, hpre⟩ := ih hrest
      refine ⟨a :: pre, x, post, by rw [hl]; rfl, hpx, ?_⟩
      intro y hy
      rcases List.mem_cons.mp hy with h1 | h1
      · subst h1; simpa using ha
      · exact hpre y h1

theorem set_cpu_ops_of_found (K : Consts) (drivers : List cpu_driver) (cpu : device)
    (a : cpu_driver) (h : find_driver K { cpu with ops := 0 } drivers = Search.found a) :
    set_cpu_ops K drivers cpu =
      { exit := Exit.returned, cpu := some { cpu with ops := a.ops }, trace := [] } := by
  simp only [set_cpu_ops, h]

theorem set_cpu_ops_of_none (K : Consts) (drivers : List cpu_driver) (cpu : device)
    (h : find_driver K { cpu with ops := 0 } drivers = Search.exhausted) :
    set_cpu_ops K drivers cpu =
      { exit := Exit.died "Unknown cpu", cpu := some { cpu with ops := 0 },
        trace := [Event.die "Unknown cpu"] } := by
  simp only [set_cpu_ops, h]

/-- The two ways `set_cpu_ops` ends on a registry of sentinel-terminated tables. -/
theorem set_cpu_ops_cases (K : Consts) (drivers : List cpu_driver) (cpu : device)
    (hok : registry_ok K drivers) :
    (∃ pre a post, drivers = pre ++ a :: post ∧
        has_match K cpu.vendor cpu.device a.id_table = true ∧
        (∀ d ∈ pre, has_match K cpu.vendor cpu.device d.id_table = false) ∧
        set_cpu_ops K drivers cpu =
          { exit := Exit.returned, cpu := some { cpu with ops := a.ops }, trace := [] }) ∨
    ((∀ d ∈ drivers, has_match K cpu.vendor cpu.device d.id_table = false) ∧
        set_cpu_ops K drivers cpu =
          { exit := Exit.died "Unknown cpu", cpu := some { cpu with ops := 0 },
            trace := [Event.die "Unknown cpu"] }) := by
  by_cases hex : ∃ d ∈ drivers, has_match K cpu.vendor cpu.device d.id_table = true
  · left
    obtain ⟨pre, a, post, hl, ha, hpre⟩ :=
      first_split (fun d => has_match K cpu.vendor cpu.device d.id_table) drivers hex
    refine ⟨pre, a, post, hl, ha, hpre, ?_⟩
    apply set_cpu_ops_of_found
    rw [hl]
    exact find_driver_first_match K { cpu with ops := 0 } a post ha pre
      (fun d hd => hok d (by rw [hl]; exact List.mem_append_left _ hd)) hpre
  · right
    have hno : ∀ d ∈ drivers, has_match K cpu.vendor cpu.device d.id_table = false := by
      intro d hd
      by_contra hc
      exact hex ⟨d, hd, by simpa using hc⟩
    exact ⟨hno, set_cpu_ops_of_none K drivers cpu
      (find_driver_no_match K { cpu with ops := 0 } drivers hok hno)⟩

/-! ## Dispatch -/

/-- C2. Dispatch tie-break in `set_cpu_ops`: in a registry of sentinel-terminated
tables in which the descriptor `a` comes before the descriptor `b` and both have,
before their sentinel, an entry equal to the identity, the run returns with the
operations of a matching descriptor placed at or before `a` (never with a later
one), and with the operations of `a` itself when no descriptor before `a`
matches; where the matching entries stand in their tables plays no role. -/
theorem set_cpu_ops_tie_break (K : Consts) (l1 l2 l3 : List cpu_driver) (a b : cpu_driver)
    (cpu : device) (hok : registry_ok K (l1 ++ a :: (l2 ++ b :: l3)))
    (ha : has_match K cpu.vendor cpu.device a.id_table = true)
    (_hb : has_match K cpu.vendor cpu.device b.id_table = true) :
    (∃ d ∈ l1 ++ [a], has_match K cpu.vendor cpu.device d.id_table = true ∧
      set_cpu_ops K (l1 ++ a :: (l2 ++ b :: l3)) cpu =
        { exit := Exit.returned, cpu := some { cpu with ops := d.ops }, trace := [] }) ∧
    ((∀ d ∈ l1, has_match K cpu.vendor cpu.device d.id_table = false) →
      set_cpu_ops K (l1 ++ a :: (l2 ++ b :: l3)) cpu =
        { exit := Exit.returned, cpu := some { cpu with ops := a.ops }, trace := [] }) := by
  constructor
  · obtain ⟨pre, x, post, hl, hx, hpre⟩ :=
      first_split (fun d => has_match K cpu.vendor cpu.device d.id_table) (l1 ++ [a])
        ⟨a, by simp, ha⟩
    have hmem : ∀ d ∈ pre ++ x :: post, d ∈ l1 ++ a :: (l2 ++ b :: l3) := by
      intro d hd
      rw [← hl] at hd
      rcases List.mem_append.mp hd with h | h
      · exact List.mem_append_left _ h
      · rw [List.mem_singleton] at h
        subst h
        exact List.mem_append_right _ (List.mem_cons_self _ _)
    have hsplit : l1 ++ a :: (l2 ++ b :: l3) = pre ++ x :: (post ++ (l2 ++ b :: l3)) := by
      have h1 : l1 ++ a :: (l2 ++ b :: l3) = (l1 ++ [a]) ++ (l2 ++ b :: l3) := by simp
      rw [h1, hl]
      simp
    refine ⟨x, by rw [hl]; simp, hx, ?_⟩
    apply set_cpu_ops_of_found
    rw [hsplit]
    exact find_driver_first_match K { cpu with ops := 0 } x _ hx pre
      (fun d hd => hok d (hmem d (List.mem_append_left _ hd))) hpre
  · intro hno
    apply set_cpu_ops_of_found
    exact find_driver_first_match K { cpu with ops := 0 } a _ ha l1
      (fun d hd => hok d (List.mem_append_left _ hd)) hno

/-- Witness for `set_cpu_ops_tie_break`: the earlier descriptor matches with its
third entry, the later one with its first. -/
theorem set_cpu_ops_tie_break_witness :
    set_cpu_ops sample_consts
      ([⟨10, [⟨1, 0x650⟩, ⟨0, 0⟩]⟩] ++
        (⟨20, [⟨1, 0x630⟩, ⟨1, 0x660⟩, ⟨1, 0x680⟩, ⟨0, 0⟩]⟩ : cpu_driver) ::
          ([] ++ (⟨30, [⟨1, 0x680⟩, ⟨0, 0⟩]⟩ : cpu_driver) :: []))
      ⟨0, 1, 0x680, 77, false, false⟩ =
    { exit := Exit.returned, cpu := some ⟨0, 1, 0x680, 20, false, false⟩, trace := [] } :=
  (set_cpu_ops_tie_break sample_consts [⟨10, [⟨1, 0x650⟩, ⟨0, 0⟩]⟩] [] []
    ⟨20, [⟨1, 0x630⟩, ⟨1, 0x660⟩, ⟨1, 0x680⟩, ⟨0, 0⟩]⟩ ⟨30, [⟨1, 0x680⟩, ⟨0, 0⟩]⟩
    ⟨0, 1, 0x680, 77, false, false⟩ (by decide) (by decide) (by decide)).2 (by decide)

/-- C3. On a registry of sentinel-terminated tables `set_cpu_ops` either returns
or ends in `die("Unknown cpu")`; it ends in `die` exactly when no descriptor has,
before its sentinel, an entry equal to the identity in vendor and device; when
it returns, `ops` is the operations pointer of a descriptor that has such an
entry; when it dies, `ops` is null and `die` was called once. -/
theorem set_cpu_ops_unknown_cpu (K : Consts) (drivers : List cpu_driver) (cpu : device)
    (hok : registry_ok K drivers) :
    ((set_cpu_ops K drivers cpu).exit = Exit.died "Unknown cpu" ↔
      ∀ d ∈ drivers, has_match K cpu.vendor cpu.device d.id_table = false) ∧
    ((set_cpu_ops K drivers cpu).exit = Exit.returned ∨
      (set_cpu_ops K drivers cpu).exit = Exit.died "Unknown cpu") ∧
    ((set_cpu_ops K drivers cpu).exit = Exit.returned →
      ∃ d ∈ drivers, has_match K cpu.vendor cpu.device d.id_table = true ∧
        (set_cpu_ops K drivers cpu).cpu = some { cpu with ops := d.ops }) ∧
    ((set_cpu_ops K drivers cpu).exit = Exit.died "Unknown cpu" →
      (set_cpu_ops K drivers cpu).cpu = some { cpu with ops := 0 } ∧
      (set_cpu_ops K drivers cpu).trace = [Event.die "Unknown cpu"]) := by
  rcases set_cpu_ops_cases K drivers cpu hok with ⟨pre, a, post, hl, ha, _, hr⟩ | ⟨hno, hr⟩
  · have hmem : a ∈ drivers := by rw [hl]; simp
    rw [hr]
    refine ⟨⟨fun h => by simp at h, fun h => ?_⟩, Or.inl rfl, fun _ => ⟨a, hmem, ha, rfl⟩,
      fun h => by simp at h⟩
    have := h a hmem
    rw [ha] at this
    exact absurd this (by simp)
  · rw [hr]
    refine ⟨⟨fun _ => hno, fun _ => rfl⟩, Or.inr rfl, fun h => by simp at h, fun _ => ⟨rfl, rfl⟩⟩

/-- Witness for `set_cpu_ops_unknown_cpu`: a registry of two descriptors, neither
of which lists the identity. -/
theorem set_cpu_ops_unknown_cpu_witness :
    (set_cpu_ops sample_consts [⟨10, [⟨1, 0x650⟩, ⟨0, 0⟩]⟩, ⟨20, [⟨3, 0x680⟩, ⟨0, 0⟩, ⟨1, 0x680⟩]⟩]
      ⟨0, 1, 0x680, 77, true, true⟩).exit = Exit.died "Unknown cpu" :=
  (set_cpu_ops_unknown_cpu sample_consts
    [⟨10, [⟨1, 0x650⟩, ⟨0, 0⟩]⟩, ⟨20, [⟨3, 0x680⟩, ⟨0, 0⟩, ⟨1, 0x680⟩]⟩]
    ⟨0, 1, 0x680, 77, true, true⟩ (by decide)).1.mpr (by decide)

/-- A list of sixteen bytes, written out. -/
theorem length_sixteen (l : List Nat) (h : l.length = 16) :
    ∃ b0 b1 b2 b3 b4 b5 b6 b7 b8 b9 b10 b11 b12 b13 b14 b15 : Nat,
      l = [b0, b1, b2, b3, b4, b5, b6, b7, b8, b9, b10, b11, b12, b13, b14, b15] := by
  rcases l with _ | ⟨b0, l⟩
  · simp at h
  rcases l with _ | ⟨b1, l⟩
  · simp at h
  rcases l with _ | ⟨b2, l⟩
  · simp at h
  rcases l with _ | ⟨b3, l⟩
  · simp at h
  rcases l with _ | ⟨b4, l⟩
  · simp at h
  rcases l with _ | ⟨b5, l⟩
  · simp at h
  rcases l with _ | ⟨b6, l⟩
  · simp at h
  rcases l with _ | ⟨b7, l⟩
  · simp at h
  rcases l with _ | ⟨b8, l⟩
  · simp at h
  rcases l with _ | ⟨b9, l⟩
  · simp at h
  rcases l with _ | ⟨b10, l⟩
  · simp at h
  rcases l with _ | ⟨b11, l⟩
  · simp at h
  rcases l with _ | ⟨b12, l⟩
  · simp at h
  rcases l with _ | ⟨b13, l⟩
  · simp at h
  rcases l with _ | ⟨b14, l⟩
  · simp at h
  rcases l with _ | ⟨b15, l⟩
  · simp at h
  rcases l with _ | ⟨b16, l⟩
  · exact ⟨b0, b1, b2, b3, b4, b5, b6, b7, b8, b9, b10, b11, b12, b13, b14, b15, rfl⟩
  · simp only [List.length_cons] at h
    omega

theorem identify_cpu_device (K : Consts) (hw : Hw) (buf : List Nat) (cpu : device) :
    (identify_cpu K hw buf cpu).device = (identify_probe K hw buf cpu).cpu.device := rfl

/-- The device record after the legacy branch: only the device signature changed. -/
theorem identify_legacy_cpu (K : Consts) (hw : Hw) (st : IdentifyState) :
    (identify_legacy K hw st).cpu =
      if (flag_is_changeable_p hw.writable st.eflags K.X86_EFLAGS_AC).1 = true then
        { st.cpu with device := 0x00000400 }
      else { st.cpu with device := 0x00000300 } := by
  by_cases hac : (flag_is_changeable_p hw.writable st.eflags K.X86_EFLAGS_AC).1 = true
  · simp only [identify_legacy, hac, if_true]
    split_ifs <;> rfl
  · simp only [identify_legacy, hac, if_false]
    split_ifs <;> rfl

/-! ## Identification through the cpuid instruction -/

/-- C4. Leaf-0 decoding: when the identification instruction is available and
leaf 0 returns `ebx = 0x756e6547`, `edx = 0x49656e69`, `ecx = 0x6c65746e`, the
first 12 bytes of the vendor buffer `identify_cpu` assembles are the bytes of
"GenuineIntel" and the vendor code stored is `X86_VENDOR_INTEL`. -/
theorem leaf0_genuine_intel (K : Consts) (hw : Hw) (buf : List Nat) (cpu : device)
    (hlen : buf.length = 16)
    (hav : (have_cpuid_p K hw.writable hw.eflags).1 = true)
    (hebx : (hw.cpuid_insn 0).ebx = 0x756e6547)
    (hedx : (hw.cpuid_insn 0).edx = 0x49656e69)
    (hecx : (hw.cpuid_insn 0).ecx = 0x6c65746e) :
    (identify_probe K hw buf cpu).vendor_name.take 12 = (cstr "GenuineIntel").take 12 ∧
    (identify_cpu K hw buf cpu).vendor = K.X86_VENDOR_INTEL := by
  obtain ⟨b0, b1, b2, b3, b4, b5, b6, b7, b8, b9, b10, b11, b12, b13, b14, b15, rfl⟩ :=
    length_sixteen buf hlen
  have hname : (identify_probe K hw
      [b0, b1, b2, b3, b4, b5, b6, b7, b8, b9, b10, b11, b12, b13, b14, b15] cpu).vendor_name =
      (cstr "GenuineIntel") ++ [b13, b14, b15] := by
    rw [identify_probe_of_cpuid K hw _ cpu hav]
    simp only [identify_cpuid, cpuid, hebx, hedx, hecx, List.set]
    rfl
  have htake : (identify_probe K hw
      [b0, b1, b2, b3, b4, b5, b6, b7, b8, b9, b10, b11, b12, b13, b14, b15] cpu).vendor_name.take 12
      = (cstr "GenuineIntel").take 12 := by
    rw [hname]
    rfl
  refine ⟨htake, ?_⟩
  have h0 : memcmp (identify_probe K hw
      [b0, b1, b2, b3, b4, b5, b6, b7, b8, b9, b10, b11, b12, b13, b14, b15] cpu).vendor_name
      (cstr "GenuineIntel") 12 = 0 := by
    rw [memcmp_eq_zero_iff 12 _ _ (by rw [hname]; simp [cstr]) (by decide)]
    exact htake
  simp only [identify_cpu, x86_vendors, vendor_loop, h0, if_true]

/-- Witness for `leaf0_genuine_intel`: a processor with a writable ID bit whose
leaf 0 spells "GenuineIntel". -/
theorem leaf0_genuine_intel_witness :
    (identify_cpu sample_consts (sample_hw 0x00240000 2 0 false) sample_buffer
      sample_device).vendor = 1 :=
  (leaf0_genuine_intel sample_consts (sample_hw 0x00240000 2 0 false) sample_buffer
    sample_device (by decide) (by decide) rfl rfl rfl).2

/-- C5. Device signature when the identification instruction is available: the
`int` read from leaf-0 `eax` is the value of `cpuid_level`; when it is at least 1
the device signature is the `eax` result of leaf 1; otherwise (in particular when
it is 0) the device signature is `0x00000400` and the record `identify_cpu` leaves
is the same whatever leaf 1 would return. -/
theorem device_signature_cpuid (K : Consts) (hw : Hw) (buf : List Nat) (cpu : device)
    (hav : (have_cpuid_p K hw.writable hw.eflags).1 = true) :
    (identify_probe K hw buf cpu).cpuid_level = to_int (cpuid hw 0).eax ∧
    (1 ≤ to_int (cpuid hw 0).eax → (identify_cpu K hw buf cpu).device = cpuid_eax hw 1) ∧
    (to_int (cpuid hw 0).eax < 1 →
      (identify_cpu K hw buf cpu).device = 0x00000400 ∧
      ∀ r : cpuid_result,
        identify_cpu K { hw with cpuid_insn := Function.update hw.cpuid_insn 1 r } buf cpu =
          identify_cpu K hw buf cpu) ∧
    (to_int (cpuid hw 0).eax = 0 → (identify_cpu K hw buf cpu).device = 0x00000400) := by
  have hlow : to_int (cpuid hw 0).eax < 1 → (identify_cpu K hw buf cpu).device = 0x00000400 := by
    intro h
    have h' : ¬ to_int (cpuid hw 0).eax ≥ 1 := by omega
    rw [identify_cpu_device, identify_probe_of_cpuid K hw buf cpu hav]
    simp only [identify_cpuid, h', if_false]
  refine ⟨?_, ?_, fun h => ⟨hlow h, ?_⟩, fun h => hlow (by omega)⟩
  · rw [identify_probe_of_cpuid K hw buf cpu hav]
    rfl
  · intro h
    have h' : to_int (cpuid hw 0).eax ≥ 1 := h
    rw [identify_cpu_device, identify_probe_of_cpuid K hw buf cpu hav]
    simp only [identify_cpuid, h', if_true]
  · intro r
    have h' : ¬ to_int (cpuid hw 0).eax ≥ 1 := by omega
    have hc : cpuid { hw with cpuid_insn := Function.update hw.cpuid_insn 1 r } 0 = cpuid hw 0 := by
      simp [cpuid, Function.update]
    have h'' : ¬ to_int
        (cpuid { hw with cpuid_insn := Function.update hw.cpuid_insn 1 r } 0).eax ≥ 1 := by
      rw [hc]; exact h'
    have hp : identify_probe K { hw with cpuid_insn := Function.update hw.cpuid_insn 1 r } buf cpu
        = identify_probe K hw buf cpu := by
      rw [identify_probe_of_cpuid K hw buf cpu hav,
        identify_probe_of_cpuid K { hw with cpuid_insn := Function.update hw.cpuid_insn 1 r }
          buf cpu hav]
      simp only [identify_cpuid, h', h'', if_false, hc]
    simp only [identify_cpu, hp]

/-- Witness for `device_signature_cpuid`: a processor whose leaf 0 reports maximum
leaf 0. -/
theorem device_signature_cpuid_witness :
    (identify_cpu sample_consts (sample_hw 0x00240000 0 0 false) sample_buffer
      sample_device).device = 0x00000400 :=
  (device_signature_cpuid sample_consts (sample_hw 0x00240000 0 0 false) sample_buffer
    sample_device (by decide)).2.2.2 (by decide)

/-! ## Identification without the cpuid instruction -/

/-- C10. When the identification instruction is unavailable, `identify_cpu` sets
the device signature to `0x00000400` if the AC flag is changeable and to
`0x00000300` otherwise, and the record it leaves is the same whatever the `cpuid`
instruction would return for any leaf. -/
theorem device_signature_no_cpuid (K : Consts) (hw : Hw) (buf : List Nat) (cpu : device)
    (hno : (have_cpuid_p K hw.writable hw.eflags).1 = false) :
    ((flag_is_changeable_p hw.writable hw.eflags K.X86_EFLAGS_AC).1 = true →
      (identify_cpu K hw buf cpu).device = 0x00000400) ∧
    ((flag_is_changeable_p hw.writable hw.eflags K.X86_EFLAGS_AC).1 = false →
      (identify_cpu K hw buf cpu).device = 0x00000300) ∧
    (∀ f : Nat → cpuid_result,
      identify_cpu K { hw with cpuid_insn := f } buf cpu = identify_cpu K hw buf cpu) := by
  refine ⟨?_, ?_, ?_⟩
  · intro hac
    rw [identify_cpu_device, identify_probe_of_no_cpuid K hw buf cpu hno, identify_legacy_cpu]
    simp only [hac, if_true]
  · intro hac
    rw [identify_cpu_device, identify_probe_of_no_cpuid K hw buf cpu hno, identify_legacy_cpu]
    simp only [hac, Bool.false_eq_true, if_false]
  · intro f
    have hp : identify_probe K { hw with cpuid_insn := f } buf cpu = identify_probe K hw buf cpu := by
      rw [identify_probe_of_no_cpuid K hw buf cpu hno,
        identify_probe_of_no_cpuid K { hw with cpuid_insn := f } buf cpu hno]
      rfl
    simp only [identify_cpu, hp]

/-- Witness for `device_signature_no_cpuid`: a processor that lets software change
neither the ID flag nor the AC flag. -/
theorem device_signature_no_cpuid_witness :
    (identify_cpu sample_consts (sample_hw 0x00000cd5 0 0 false) sample_buffer
      sample_device).device = 0x00000300 :=
  (device_signature_no_cpuid sample_consts (sample_hw 0x00000cd5 0 0 false) sample_buffer
    sample_device (by decide)).2.1 (by decide)

/-! ## Lemmas: cpu_initialize -/

/-- The record `identify_cpu` leaves differs from the one it received in the
vendor and device fields only. -/
theorem identify_cpu_frame (K : Consts) (hw : Hw) (buf : List Nat) (cpu : device) :
    identify_cpu K hw buf cpu =
      { cpu with vendor := (identify_cpu K hw buf cpu).vendor,
                 device := (identify_cpu K hw buf cpu).device } := by
  have hp : (identify_probe K hw buf cpu).cpu =
      { cpu with device := (identify_probe K hw buf cpu).cpu.device } := by
    by_cases hav : (have_cpuid_p K hw.writable hw.eflags).1 = true
    · rw [identify_probe_of_cpuid K hw buf cpu hav]
      simp only [identify_cpuid]
      split_ifs <;> rfl
    · have hno : (have_cpuid_p K hw.writable hw.eflags).1 = false := by simpa using hav
      rw [identify_probe_of_no_cpuid K hw buf cpu hno, identify_legacy_cpu]
      split_ifs <;> rfl
  simp only [identify_cpu]
  rw [hp]

theorem find_driver_shape (K : Consts) (cpu : device) :
    ∀ (drivers : List cpu_driver),
      (∃ a ∈ drivers, find_driver K cpu drivers = Search.found a) ∨
      find_driver K cpu drivers = Search.exhausted ∨
      find_driver K cpu drivers = Search.overrun := by
  intro drivers
  induction drivers with
  | nil => right; left; rfl
  | cons d rest ih =>
    cases hs : scan_id_table K cpu d.id_table with
    | found => left; exact ⟨d, List.mem_cons_self _ _, by simp only [find_driver, hs]⟩
    | overrun => right; right; simp only [find_driver, hs]
    | sentinel =>
      have hstep : find_driver K cpu (d :: rest) = find_driver K cpu rest := by
        simp only [find_driver, hs]
      rw [hstep]
      rcases ih with ⟨a, ha, h⟩ | h | h
      · exact Or.inl ⟨a, List.mem_cons_of_mem _ ha, h⟩
      · exact Or.inr (Or.inl h)
      · exact Or.inr (Or.inr h)

/-- The three ways `set_cpu_ops` ends on an arbitrary registry. -/
theorem set_cpu_ops_shape (K : Consts) (drivers : List cpu_driver) (cpu : device) :
    (∃ a ∈ drivers, set_cpu_ops K drivers cpu =
      { exit := Exit.returned, cpu := some { cpu with ops := a.ops }, trace := [] }) ∨
    set_cpu_ops K drivers cpu =
      { exit := Exit.died "Unknown cpu", cpu := some { cpu with ops := 0 },
        trace := [Event.die "Unknown cpu"] } ∨
    set_cpu_ops K drivers cpu =
      { exit := Exit.out_of_bounds, cpu := some { cpu with ops := 0 }, trace := [] } := by
  rcases find_driver_shape K { cpu with ops := 0 } drivers with ⟨a, ha, h⟩ | h | h
  · exact Or.inl ⟨a, ha, set_cpu_ops_of_found K drivers cpu a h⟩
  · exact Or.inr (Or.inl (set_cpu_ops_of_none K drivers cpu h))
  · right; right
    simp only [set_cpu_ops, h]

theorem body_of_returned (K : Consts) (env : Env) (hw : Hw) (buf : List Nat) (cpu c : device)
    (h : set_cpu_ops K env.cpu_drivers (identify_cpu K hw buf cpu) =
      { exit := Exit.returned, cpu := some c, trace := [] }) :
    cpu_initialize_body K env hw buf cpu =
      if c.ops ≠ 0 ∧ (env.ops_at c.ops).init ≠ 0 then
        { exit := Exit.returned,
          cpu := some (env.call_init (env.ops_at c.ops).init
            { c with enabled := true, initialized := true }),
          trace := body_calls ++
            [Event.init (env.ops_at c.ops).init { c with enabled := true, initialized := true },
              Event.printk_info] }
      else
        { exit := Exit.returned, cpu := some c, trace := body_calls ++ [Event.printk_info] } := by
  simp only [cpu_initialize_body, h, body_calls, List.append_nil]

theorem body_of_died (K : Consts) (env : Env) (hw : Hw) (buf : List Nat) (cpu c : device)
    (h : set_cpu_ops K env.cpu_drivers (identify_cpu K hw buf cpu) =
      { exit := Exit.died "Unknown cpu", cpu := some c, trace := [Event.die "Unknown cpu"] }) :
    cpu_initialize_body K env hw buf cpu =
      { exit := Exit.died "Unknown cpu", cpu := some c,
        trace := body_calls ++ [Event.die "Unknown cpu"] } := by
  simp only [cpu_initialize_body, h, body_calls]

theorem body_of_out_of_bounds (K : Consts) (env : Env) (hw : Hw) (buf : List Nat)
    (cpu c : device)
    (h : set_cpu_ops K env.cpu_drivers (identify_cpu K hw buf cpu) =
      { exit := Exit.out_of_bounds, cpu := some c, trace := [] }) :
    cpu_initialize_body K env hw buf cpu =
      { exit := Exit.out_of_bounds, cpu := some c, trace := body_calls } := by
  simp only [cpu_initialize_body, h, body_calls, List.append_nil]

/-- With the record present and the topology guard passed, `cpu_initialize` is
its body, preceded by the notice and, in an SMP build, the read of the APIC id. -/
theorem cpu_initialize_of_guard (K : Consts) (smp : Bool) (env : Env) (hw : Hw)
    (buf : List Nat) (index : Nat) (cpu : device) (hguard : smp = true → cpu.apic_id = lapicid hw) :
    cpu_initialize K smp env hw buf ⟨index, some cpu⟩ =
      { cpu_initialize_body K env hw buf cpu with
        trace := (if smp = true then [Event.printk_notice, Event.lapicid]
          else [Event.printk_notice]) ++ (cpu_initialize_body K env hw buf cpu).trace } := by
  cases smp with
  | false => simp [ cpu_initialize]
  | true => simp [ cpu_initialize, hguard rfl]

/-! ## The initialization sequence -/

/-- C6 fails as stated: the init entry point receives the record by pointer and
may write its flags.  With an entry point that clears `enabled`, a run that starts
with both flags false, passes the topology guard, finds a matching driver and
binds non-null operations with a non-null `init` ends with `enabled` false. -/
theorem cpu_initialize_flags_counterexample :
    sample_device.enabled = false ∧ sample_device.initialized = false ∧
    sample_device.apic_id = lapicid (sample_hw 0x00240000 2 0 false) ∧
    registry_ok sample_consts sample_env_clearing.cpu_drivers ∧
    (set_cpu_ops sample_consts sample_env_clearing.cpu_drivers
      (identify_cpu sample_consts (sample_hw 0x00240000 2 0 false) sample_buffer
        sample_device)).cpu =
      some { apic_id := 0, vendor := 1, device := 0x00000673, ops := 0x1000, enabled := false,
             initialized := false } ∧
    dispatch_has_init sample_consts sample_env_clearing
      (identify_cpu sample_consts (sample_hw 0x00240000 2 0 false) sample_buffer sample_device)
      { apic_id := 0, vendor := 1, device := 0x00000673, ops := 0x1000, enabled := false,
        initialized := false } ∧
    ( cpu_initialize sample_consts true sample_env_clearing (sample_hw 0x00240000 2 0 false)
      sample_buffer ⟨0, some sample_device⟩).cpu =
      some { apic_id := 0, vendor := 1, device := 0x00000673, ops := 0x1000, enabled := false,
             initialized := true } := by
  decide

/-- C6, amended. A run of `cpu_initialize` on a present record whose `enabled` and
`initialized` flags are false, with the topology guard passed and a registry of
sentinel-terminated tables.  When some descriptor matches the identified
(vendor, device) and the operations pointer bound by `set_cpu_ops` is non-null
with a non-null `init`, the record is handed to that entry point with both flags
true and the run ends with the record the entry point leaves; in every other run
both flags are still false.  Hence, for entry points that leave the two flags of
the record they receive as they found them, both flags are true afterwards
exactly in the first case. -/
theorem cpu_initialize_flags (K : Consts) (smp : Bool) (env : Env) (hw : Hw) (buf : List Nat)
    (index : Nat) (cpu : device)
    (hen : cpu.enabled = false) (hin : cpu.initialized = false)
    (hguard : smp = true → cpu.apic_id = lapicid hw)
    (hok : registry_ok K env.cpu_drivers) :
    ∃ c bound : device,
      ( cpu_initialize K smp env hw buf ⟨index, some cpu⟩).cpu = some c ∧
      (set_cpu_ops K env.cpu_drivers (identify_cpu K hw buf cpu)).cpu = some bound ∧
      (dispatch_has_init K env (identify_cpu K hw buf cpu) bound →
        ∃ handed : device, handed.enabled = true ∧ handed.initialized = true ∧
          c = env.call_init (env.ops_at bound.ops).init handed) ∧
      (¬ dispatch_has_init K env (identify_cpu K hw buf cpu) bound →
        c.enabled = false ∧ c.initialized = false) ∧
      ((∀ fn d, (env.call_init fn d).enabled = d.enabled ∧
          (env.call_init fn d).initialized = d.initialized) →
        ((c.enabled = true ∧ c.initialized = true) ↔
          dispatch_has_init K env (identify_cpu K hw buf cpu) bound)) := by
  have hid_en : (identify_cpu K hw buf cpu).enabled = false := by
    rw [identify_cpu_frame]; exact hen
  have hid_in : (identify_cpu K hw buf cpu).initialized = false := by
    rw [identify_cpu_frame]; exact hin
  rw [cpu_initialize_of_guard K smp env hw buf index cpu hguard]
  rcases set_cpu_ops_cases K env.cpu_drivers (identify_cpu K hw buf cpu) hok with
    ⟨pre, a, post, hl, ha, _, hr⟩ | ⟨hno, hr⟩
  · have hmem : a ∈ env.cpu_drivers := by rw [hl]; simp
    rw [body_of_returned K env hw buf cpu _ hr, hr]
    by_cases hc : a.ops ≠ 0 ∧ (env.ops_at a.ops).init ≠ 0
    · rw [if_pos hc]
      have hd : dispatch_has_init K env (identify_cpu K hw buf cpu)
          { identify_cpu K hw buf cpu with ops := a.ops } := ⟨⟨a, hmem, ha⟩, hc⟩
      refine ⟨_, _, rfl, rfl, fun _ => ⟨_, rfl, rfl, rfl⟩, fun hneg => absurd hd hneg, ?_⟩
      intro hinit
      exact ⟨fun _ => hd, fun _ => ⟨by rw [(hinit _ _).1], by rw [(hinit _ _).2]⟩⟩
    · rw [if_neg hc]
      have hd : ¬ dispatch_has_init K env (identify_cpu K hw buf cpu)
          { identify_cpu K hw buf cpu with ops := a.ops } := fun h => hc h.2
      refine ⟨_, _, rfl, rfl, fun h => absurd h hd, fun _ => ⟨hid_en, hid_in⟩, ?_⟩
      intro _
      constructor
      · intro h
        have h1 : (identify_cpu K hw buf cpu).enabled = true := h.1
        rw [hid_en] at h1
        exact absurd h1 (by simp)
      · intro h
        exact absurd h hd
  · rw [body_of_died K env hw buf cpu _ hr, hr]
    have hd : ¬ dispatch_has_init K env (identify_cpu K hw buf cpu)
        { identify_cpu K hw buf cpu with ops := 0 } := by
      intro h
      obtain ⟨⟨d, hd, hm⟩, _⟩ := h
      rw [hno d hd] at hm
      exact absurd hm (by simp)
    refine ⟨_, _, rfl, rfl, fun h => absurd h hd, fun _ => ⟨hid_en, hid_in⟩, ?_⟩
    intro _
    constructor
    · intro h
      have h1 : (identify_cpu K hw buf cpu).enabled = true := h.1
      rw [hid_en] at h1
      exact absurd h1 (by simp)
    · intro h
      exact absurd h hd

/-- Witness for `cpu_initialize_flags`: an SMP build, a processor with `cpuid`
whose signature the second driver lists. -/
theorem cpu_initialize_flags_witness :
    ( cpu_initialize sample_consts true sample_env (sample_hw 0x00240000 2 0 false)
      sample_buffer ⟨0, some sample_device⟩).cpu =
      some { apic_id := 0, vendor := 1, device := 0x00000673, ops := 0x1000, enabled := true,
             initialized := true } ∧
    ∃ c bound : device,
      ( cpu_initialize sample_consts true sample_env (sample_hw 0x00240000 2 0 false)
        sample_buffer ⟨0, some sample_device⟩).cpu = some c ∧
      (set_cpu_ops sample_consts sample_env.cpu_drivers
        (identify_cpu sample_consts (sample_hw 0x00240000 2 0 false) sample_buffer
          sample_device)).cpu = some bound ∧
      (dispatch_has_init sample_consts sample_env
          (identify_cpu sample_consts (sample_hw 0x00240000 2 0 false) sample_buffer
            sample_device) bound →
        ∃ handed : device, handed.enabled = true ∧ handed.initialized = true ∧
          c = sample_env.call_init (sample_env.ops_at bound.ops).init handed) ∧
      (¬ dispatch_has_init sample_consts sample_env
          (identify_cpu sample_consts (sample_hw 0x00240000 2 0 false) sample_buffer
            sample_device) bound →
        c.enabled = false ∧ c.initialized = false) ∧
      ((∀ fn d, (sample_env.call_init fn d).enabled = d.enabled ∧
          (sample_env.call_init fn d).initialized = d.initialized) →
        ((c.enabled = true ∧ c.initialized = true) ↔
          dispatch_has_init sample_consts sample_env
            (identify_cpu sample_consts (sample_hw 0x00240000 2 0 false) sample_buffer
              sample_device) bound)) :=
  ⟨by decide, cpu_initialize_flags sample_consts true sample_env (sample_hw 0x00240000 2 0 false)
    sample_buffer 0 sample_device rfl rfl (fun _ => rfl) (by decide)⟩

/-- C7. Topology mismatch in an SMP build: when the record's APIC id differs from
the id read from the hardware, `cpu_initialize` returns to its caller, the device
record is the one it found, and the only calls made are the notice, the two reads
of the APIC id and the error message: neither `identify_cpu` nor `set_cpu_ops` nor
any init entry point runs. -/
theorem cpu_initialize_apic_mismatch (K : Consts) (env : Env) (hw : Hw) (buf : List Nat)
    (index : Nat) (cpu : device) (hmis : cpu.apic_id ≠ lapicid hw) :
    cpu_initialize K true env hw buf ⟨index, some cpu⟩ =
      { exit := Exit.returned, cpu := some cpu,
        trace := [Event.printk_notice, Event.lapicid, Event.lapicid, Event.printk_err] } ∧
    Event.identify_cpu ∉ ( cpu_initialize K true env hw buf ⟨index, some cpu⟩).trace ∧
    Event.set_cpu_ops ∉ ( cpu_initialize K true env hw buf ⟨index, some cpu⟩).trace ∧
    (∀ fn d, Event.init fn d ∉ ( cpu_initialize K true env hw buf ⟨index, some cpu⟩).trace) := by
  have h : cpu_initialize K true env hw buf ⟨index, some cpu⟩ =
      { exit := Exit.returned, cpu := some cpu,
        trace := [Event.printk_notice, Event.lapicid, Event.lapicid, Event.printk_err] } := by
    simp [ cpu_initialize, hmis]
  rw [h]
  refine ⟨rfl, by simp, by simp, fun fn d => by simp⟩

/-- Witness for `cpu_initialize_apic_mismatch`: the record carries APIC id 3, the
hardware reports 0. -/
theorem cpu_initialize_apic_mismatch_witness :
    cpu_initialize sample_consts true sample_env (sample_hw 0x00240000 2 0 false)
      sample_buffer ⟨1, some { sample_device with apic_id := 3 }⟩ =
      { exit := Exit.returned, cpu := some { sample_device with apic_id := 3 },
        trace := [Event.printk_notice, Event.lapicid, Event.lapicid, Event.printk_err] } :=
  (cpu_initialize_apic_mismatch sample_consts sample_env (sample_hw 0x00240000 2 0 false)
    sample_buffer 1 { sample_device with apic_id := 3 } (by decide)).1

/-- C8. With the record present, the topology guard passed and a registry of
sentinel-terminated tables none of which lists the identified (vendor, device),
`cpu_initialize` ends in `die("Unknown cpu")`, called once, right after the call
of `set_cpu_ops`; no other `die` and no init entry point is called, `ops` is null
and `enabled` and `initialized` are as they were on entry. -/
theorem cpu_initialize_unknown_cpu (K : Consts) (smp : Bool) (env : Env) (hw : Hw)
    (buf : List Nat) (index : Nat) (cpu : device)
    (hguard : smp = true → cpu.apic_id = lapicid hw)
    (hok : registry_ok K env.cpu_drivers)
    (hno : ∀ d ∈ env.cpu_drivers, has_match K (identify_cpu K hw buf cpu).vendor
      (identify_cpu K hw buf cpu).device d.id_table = false) :
    cpu_initialize K smp env hw buf ⟨index, some cpu⟩ =
      { exit := Exit.died "Unknown cpu",
        cpu := some { identify_cpu K hw buf cpu with ops := 0 },
        trace := (if smp = true then [Event.printk_notice, Event.lapicid]
          else [Event.printk_notice]) ++
          [Event.identify_cpu, Event.printk_debug, Event.get_fms, Event.printk_debug,
            Event.set_cpu_ops, Event.die "Unknown cpu"] } ∧
    (( cpu_initialize K smp env hw buf ⟨index, some cpu⟩).trace.count
      (Event.die "Unknown cpu") = 1) ∧
    (∀ msg, Event.die msg ∈ ( cpu_initialize K smp env hw buf ⟨index, some cpu⟩).trace →
      msg = "Unknown cpu") ∧
    (∀ fn d, Event.init fn d ∉ ( cpu_initialize K smp env hw buf ⟨index, some cpu⟩).trace) ∧
    ({ identify_cpu K hw buf cpu with ops := 0 } : device).enabled = cpu.enabled ∧
    ({ identify_cpu K hw buf cpu with ops := 0 } : device).initialized = cpu.initialized := by
  have hr : set_cpu_ops K env.cpu_drivers (identify_cpu K hw buf cpu) =
      { exit := Exit.died "Unknown cpu", cpu := some { identify_cpu K hw buf cpu with ops := 0 },
        trace := [Event.die "Unknown cpu"] } :=
    set_cpu_ops_of_none K _ _ (find_driver_no_match K _ _ hok hno)
  have h : cpu_initialize K smp env hw buf ⟨index, some cpu⟩ =
      { exit := Exit.died "Unknown cpu",
        cpu := some { identify_cpu K hw buf cpu with ops := 0 },
        trace := (if smp = true then [Event.printk_notice, Event.lapicid]
          else [Event.printk_notice]) ++
          [Event.identify_cpu, Event.printk_debug, Event.get_fms, Event.printk_debug,
            Event.set_cpu_ops, Event.die "Unknown cpu"] } := by
    rw [cpu_initialize_of_guard K smp env hw buf index cpu hguard,
      body_of_died K env hw buf cpu _ hr]
    rfl
  rw [h]
  refine ⟨rfl, ?_, ?_, ?_, ?_, ?_⟩
  · cases smp <;> rfl
  · intro msg hmem
    cases smp <;> simpa using hmem
  · intro fn d
    cases smp <;> simp
  · show (identify_cpu K hw buf cpu).enabled = cpu.enabled
    rw [identify_cpu_frame]
  · show (identify_cpu K hw buf cpu).initialized = cpu.initialized
    rw [identify_cpu_frame]

/-- Witness for `cpu_initialize_unknown_cpu`: an Intel processor and a registry
whose only driver lists its signature after the sentinel. -/
theorem cpu_initialize_unknown_cpu_witness :
    ( cpu_initialize sample_consts true sample_env_no_driver (sample_hw 0x00240000 2 0 false)
      sample_buffer ⟨0, some sample_device⟩).trace.count (Event.die "Unknown cpu") = 1 :=
  (cpu_initialize_unknown_cpu sample_consts true sample_env_no_driver
    (sample_hw 0x00240000 2 0 false) sample_buffer 0 sample_device (fun _ => rfl) (by decide)
    (by decide)).2.1

/-- C9. When `cpu_info()` gives no device record, `cpu_initialize` ends in
`die("CPU: missing cpu device structure")` right after the notice: no read of the
APIC id, no `identify_cpu`, no `set_cpu_ops` and no init entry point precedes it.
When the record is present, the run neither ends in this `die` nor calls it. -/
theorem cpu_initialize_missing_record (K : Consts) (smp : Bool) (env : Env) (hw : Hw)
    (buf : List Nat) (index : Nat) :
    cpu_initialize K smp env hw buf ⟨index, none⟩ =
      { exit := Exit.died "CPU: missing cpu device structure", cpu := none,
        trace := [Event.printk_notice, Event.die "CPU: missing cpu device structure"] } ∧
    (∀ cpu : device,
      ( cpu_initialize K smp env hw buf ⟨index, some cpu⟩).exit ≠
        Exit.died "CPU: missing cpu device structure" ∧
      Event.die "CPU: missing cpu device structure" ∉
        ( cpu_initialize K smp env hw buf ⟨index, some cpu⟩).trace) := by
  refine ⟨rfl, ?_⟩
  intro cpu
  have hbody : (cpu_initialize_body K env hw buf cpu).exit ≠
      Exit.died "CPU: missing cpu device structure" ∧
      Event.die "CPU: missing cpu device structure" ∉
        (cpu_initialize_body K env hw buf cpu).trace := by
    rcases set_cpu_ops_shape K env.cpu_drivers (identify_cpu K hw buf cpu) with
      ⟨a, _, hr⟩ | hr | hr
    · rw [body_of_returned K env hw buf cpu _ hr]
      split_ifs <;> exact ⟨by simp, by simp [body_calls]⟩
    · rw [body_of_died K env hw buf cpu _ hr]
      have hmsg : Exit.died "Unknown cpu" ≠ Exit.died "CPU: missing cpu device structure" := by
        decide
      exact ⟨hmsg, by simp [body_calls]⟩
    · rw [body_of_out_of_bounds K env hw buf cpu _ hr]
      exact ⟨by simp, by simp [body_calls]⟩
  by_cases hg : smp = true → cpu.apic_id = lapicid hw
  · rw [cpu_initialize_of_guard K smp env hw buf index cpu hg]
    refine ⟨hbody.1, ?_⟩
    cases smp <;> simpa using hbody.2
  · have hs : smp = true := by
      by_contra h
      exact hg (fun h' => absurd h' h)
    have hmis : cpu.apic_id ≠ lapicid hw := fun h => hg (fun _ => h)
    subst hs
    have h : cpu_initialize K true env hw buf ⟨index, some cpu⟩ =
        { exit := Exit.returned, cpu := some cpu,
          trace := [Event.printk_notice, Event.lapicid, Event.lapicid, Event.printk_err] } := by
      simp [ cpu_initialize, hmis]
    rw [h]
    exact ⟨by simp, by simp⟩

/-! ## Lemmas: the legacy branch -/

/-- A buffer that starts with the 12 bytes of a table string gets that entry's
vendor code. -/
theorem vendor_loop_table_name (K : Consts) (vendor_name : List Nat) (v : Nat)
    (e : Nat × List Nat) (he : e ∈ x86_vendors K) (hlen : 12 ≤ vendor_name.length)
    (htake : vendor_name.take 12 = e.2.take 12) :
    vendor_loop vendor_name (x86_vendors K) v = e.1 := by
  have hcmp : ∀ x ∈ x86_vendors K,
      (memcmp vendor_name x.2 12 = 0 ↔ vendor_name.take 12 = x.2.take 12) := fun x hx =>
    memcmp_eq_zero_iff 12 _ _ hlen (x86_vendors_names_length K x hx)
  apply vendor_loop_unique_match _ _ _ e he ((hcmp e he).mpr htake)
  intro x hx hz
  have h1 : x.2.take 12 = e.2.take 12 := ((hcmp x hx).mp hz).symm.trans htake
  rw [pairwise_names_unique (x86_vendors_names_distinct K) x hx e he h1]

/-- A buffer whose first byte is NUL compares unequal to every table string. -/
theorem memcmp_empty_tag (K : Consts) (rest : List Nat) :
    ∀ e ∈ x86_vendors K, memcmp (0 :: rest) e.2 12 ≠ 0 := by
  simp only [x86_vendors, List.mem_cons, List.mem_singleton, List.not_mem_nil, or_false,
    forall_eq_or_imp, forall_eq]
  have hc : ∀ (s : List Nat) (c : Nat) (cs : List Nat), s = c :: cs → c ≠ 0 →
      memcmp (0 :: rest) s 12 ≠ 0 := by
    intro s c cs hs hcne
    subst hs
    have h0 : ¬ (0 = c) := fun h => hcne h.symm
    simp only [memcmp, h0, if_false]
    omega
  refine ⟨?_, ?_, ?_, ?_, ?_, ?_, ?_, ?_, ?_, ?_, ?_⟩ <;>
    exact hc _ _ _ (by rfl) (by decide)

/-- A buffer whose first byte is NUL matches no table string. -/
theorem vendor_loop_empty_tag (K : Consts) (rest : List Nat) (v : Nat) :
    vendor_loop (0 :: rest) (x86_vendors K) v = v :=
  vendor_loop_no_match _ _ _ (memcmp_empty_tag K rest)

/-- The vendor buffer after the legacy branch. -/
theorem identify_legacy_vendor_name (K : Consts) (hw : Hw) (st : IdentifyState) :
    (identify_legacy K hw st).vendor_name =
      if (flag_is_changeable_p hw.writable st.eflags K.X86_EFLAGS_AC).1 = true ∧
          (test_cyrix_52div hw).1 = true then
        memcpy st.vendor_name (cstr "CyrixInstead") 13
      else if (deep_magic_nexgen_probe hw).1 ≠ 0 then
        memcpy st.vendor_name (cstr "NexGenDriven") 13
      else st.vendor_name := by
  simp only [identify_legacy]
  generalize flag_is_changeable_p hw.writable st.eflags K.X86_EFLAGS_AC = A
  generalize test_cyrix_52div hw = C
  generalize deep_magic_nexgen_probe hw = N
  obtain ⟨a, af⟩ := A
  obtain ⟨c, cf⟩ := C
  obtain ⟨n, nf⟩ := N
  cases a <;> cases c <;> by_cases hn : n = 0 <;> simp [hn]

/-- The vendor code `identify_cpu` stores when the identification instruction is
unavailable, for a buffer of sixteen bytes. -/
theorem identify_cpu_vendor_legacy (K : Consts) (hw : Hw) (buf : List Nat) (cpu : device)
    (hlen : buf.length = 16) (hno : (have_cpuid_p K hw.writable hw.eflags).1 = false) :
    (identify_cpu K hw buf cpu).vendor =
      if (flag_is_changeable_p hw.writable hw.eflags K.X86_EFLAGS_AC).1 = true ∧
          (test_cyrix_52div hw).1 = true then K.X86_VENDOR_CYRIX
      else if (deep_magic_nexgen_probe hw).1 ≠ 0 then K.X86_VENDOR_NEXGEN
      else K.X86_VENDOR_UNKNOWN := by
  have hv : (identify_cpu K hw buf cpu).vendor =
      vendor_loop (identify_probe K hw buf cpu).vendor_name (x86_vendors K)
        K.X86_VENDOR_UNKNOWN := rfl
  rw [hv, identify_probe_of_no_cpuid K hw buf cpu hno, identify_legacy_vendor_name]
  split_ifs with h1 h2
  · exact vendor_loop_table_name K _ _ (K.X86_VENDOR_CYRIX, cstr "CyrixInstead")
      (by simp [x86_vendors]) (by simp [memcpy, cstr]) (by simp [memcpy, cstr])
  · exact vendor_loop_table_name K _ _ (K.X86_VENDOR_NEXGEN, cstr "NexGenDriven")
      (by simp [x86_vendors]) (by simp [memcpy, cstr]) (by simp [memcpy, cstr])
  · obtain ⟨b0, b1, b2, b3, b4, b5, b6, b7, b8, b9, b10, b11, b12, b13, b14, b15, rfl⟩ :=
      length_sixteen buf hlen
    exact vendor_loop_empty_tag K _ _

/-- The device signature `identify_cpu` stores when the identification instruction
is unavailable. -/
theorem identify_cpu_device_legacy (K : Consts) (hw : Hw) (buf : List Nat) (cpu : device)
    (hno : (have_cpuid_p K hw.writable hw.eflags).1 = false) :
    (identify_cpu K hw buf cpu).device =
      if (flag_is_changeable_p hw.writable hw.eflags K.X86_EFLAGS_AC).1 = true then 0x00000400
      else 0x00000300 := by
  rw [identify_cpu_device, identify_probe_of_no_cpuid K hw buf cpu hno, identify_legacy_cpu]
  split_ifs <;> rfl

/-! ## The legacy vendor probes -/

/-- C11 fails as stated: on a processor without the identification instruction
whose AC flag is not changeable (device `0x00000300`), a positive NexGen probe
makes `identify_cpu` store `X86_VENDOR_NEXGEN`, not `X86_VENDOR_UNKNOWN`. -/
theorem legacy_386_nexgen_counterexample :
    (have_cpuid_p sample_consts (sample_hw 0x00000cd5 0 0 true).writable
      (sample_hw 0x00000cd5 0 0 true).eflags).1 = false ∧
    (flag_is_changeable_p (sample_hw 0x00000cd5 0 0 true).writable
      (sample_hw 0x00000cd5 0 0 true).eflags sample_consts.X86_EFLAGS_AC).1 = false ∧
    (identify_cpu sample_consts (sample_hw 0x00000cd5 0 0 true) sample_buffer
      sample_device).device = 0x00000300 ∧
    (identify_cpu sample_consts (sample_hw 0x00000cd5 0 0 true) sample_buffer
      sample_device).vendor = sample_consts.X86_VENDOR_NEXGEN ∧
    (identify_cpu sample_consts (sample_hw 0x00000cd5 0 0 true) sample_buffer
      sample_device).vendor ≠ sample_consts.X86_VENDOR_UNKNOWN := by
  decide

/-- C11, amended. When the identification instruction is unavailable and the AC
flag is not changeable, the device signature is `0x00000300` and the Cyrix
divide probe does not contribute (the record is the same whatever that probe
would read), but the NexGen probe does: the vendor code is `X86_VENDOR_NEXGEN`
when the NexGen probe is positive and `X86_VENDOR_UNKNOWN` when it is negative. -/
theorem legacy_386_vendor (K : Consts) (hw : Hw) (buf : List Nat) (cpu : device)
    (hlen : buf.length = 16)
    (hno : (have_cpuid_p K hw.writable hw.eflags).1 = false)
    (hac : (flag_is_changeable_p hw.writable hw.eflags K.X86_EFLAGS_AC).1 = false) :
    (identify_cpu K hw buf cpu).device = 0x00000300 ∧
    ((deep_magic_nexgen_probe hw).1 ≠ 0 →
      (identify_cpu K hw buf cpu).vendor = K.X86_VENDOR_NEXGEN) ∧
    ((deep_magic_nexgen_probe hw).1 = 0 →
      (identify_cpu K hw buf cpu).vendor = K.X86_VENDOR_UNKNOWN) ∧
    (∀ eax fl : Nat,
      identify_cpu K { hw with cyrix_eax := eax, cyrix_eflags := fl } buf cpu =
        identify_cpu K hw buf cpu) := by
  have hvend : ∀ h : Hw, h.writable = hw.writable → h.eflags = hw.eflags →
      deep_magic_nexgen_probe h = deep_magic_nexgen_probe hw →
      (identify_cpu K h buf cpu).vendor =
        if (deep_magic_nexgen_probe hw).1 ≠ 0 then K.X86_VENDOR_NEXGEN
        else K.X86_VENDOR_UNKNOWN := by
    intro h hw1 hw2 hw3
    have hno' : (have_cpuid_p K h.writable h.eflags).1 = false := by rw [hw1, hw2]; exact hno
    rw [identify_cpu_vendor_legacy K h buf cpu hlen hno', hw1, hw2, hw3]
    simp only [hac, Bool.false_eq_true, false_and, if_false]
  have hdev : ∀ h : Hw, h.writable = hw.writable → h.eflags = hw.eflags →
      (identify_cpu K h buf cpu).device = 0x00000300 := by
    intro h hw1 hw2
    have hno' : (have_cpuid_p K h.writable h.eflags).1 = false := by rw [hw1, hw2]; exact hno
    rw [identify_cpu_device_legacy K h buf cpu hno', hw1, hw2]
    simp only [hac, Bool.false_eq_true, if_false]
  refine ⟨hdev hw rfl rfl, ?_, ?_, ?_⟩
  · intro hn
    rw [hvend hw rfl rfl rfl, if_pos hn]
  · intro hn
    have hn' : ¬ (deep_magic_nexgen_probe hw).1 ≠ 0 := fun h => h hn
    rw [hvend hw rfl rfl rfl, if_neg hn']
  · intro eax fl
    rw [identify_cpu_frame K hw buf cpu,
      identify_cpu_frame K { hw with cyrix_eax := eax, cyrix_eflags := fl } buf cpu,
      hvend hw rfl rfl rfl, hvend { hw with cyrix_eax := eax, cyrix_eflags := fl } rfl rfl rfl,
      hdev hw rfl rfl, hdev { hw with cyrix_eax := eax, cyrix_eflags := fl } rfl rfl]

/-- Witness for `legacy_386_vendor`: a processor that lets software change neither
the ID flag nor the AC flag and on which both legacy probes are positive. -/
theorem legacy_386_vendor_witness :
    (identify_cpu sample_consts (sample_hw 0x00000cd5 0 0x0200 true) sample_buffer
      sample_device).vendor = sample_consts.X86_VENDOR_NEXGEN :=
  (legacy_386_vendor sample_consts (sample_hw 0x00000cd5 0 0x0200 true) sample_buffer
    sample_device (by decide) (by decide) (by decide)).2.1 (by decide)

/-- C12. Legacy probe order on a processor without the identification instruction
whose AC flag is changeable: the device signature is `0x00000400`; a positive
Cyrix divide probe gives `X86_VENDOR_CYRIX`, and the record is then the same
whatever the NexGen probe would return; a negative Cyrix probe with a positive
NexGen probe gives `X86_VENDOR_NEXGEN`; two negative probes give
`X86_VENDOR_UNKNOWN`. -/
theorem legacy_486_probe_order (K : Consts) (hw : Hw) (buf : List Nat) (cpu : device)
    (hlen : buf.length = 16)
    (hno : (have_cpuid_p K hw.writable hw.eflags).1 = false)
    (hac : (flag_is_changeable_p hw.writable hw.eflags K.X86_EFLAGS_AC).1 = true) :
    (identify_cpu K hw buf cpu).device = 0x00000400 ∧
    ((test_cyrix_52div hw).1 = true →
      (identify_cpu K hw buf cpu).vendor = K.X86_VENDOR_CYRIX ∧
      ∀ (zf : Bool) (fl : Nat),
        identify_cpu K { hw with nexgen_zf := zf, nexgen_eflags := fl } buf cpu =
          identify_cpu K hw buf cpu) ∧
    ((test_cyrix_52div hw).1 = false → (deep_magic_nexgen_probe hw).1 ≠ 0 →
      (identify_cpu K hw buf cpu).vendor = K.X86_VENDOR_NEXGEN) ∧
    ((test_cyrix_52div hw).1 = false → (deep_magic_nexgen_probe hw).1 = 0 →
      (identify_cpu K hw buf cpu).vendor = K.X86_VENDOR_UNKNOWN) := by
  have hdev : ∀ h : Hw, h.writable = hw.writable → h.eflags = hw.eflags →
      (identify_cpu K h buf cpu).device = 0x00000400 := by
    intro h hw1 hw2
    have hno' : (have_cpuid_p K h.writable h.eflags).1 = false := by rw [hw1, hw2]; exact hno
    rw [identify_cpu_device_legacy K h buf cpu hno', hw1, hw2]
    simp only [hac, if_true]
  have hvend : ∀ h : Hw, h.writable = hw.writable → h.eflags = hw.eflags →
      (identify_cpu K h buf cpu).vendor =
        if (test_cyrix_52div h).1 = true then K.X86_VENDOR_CYRIX
        else if (deep_magic_nexgen_probe h).1 ≠ 0 then K.X86_VENDOR_NEXGEN
        else K.X86_VENDOR_UNKNOWN := by
    intro h hw1 hw2
    have hno' : (have_cpuid_p K h.writable h.eflags).1 = false := by rw [hw1, hw2]; exact hno
    rw [identify_cpu_vendor_legacy K h buf cpu hlen hno', hw1, hw2]
    simp only [hac, true_and]
  refine ⟨hdev hw rfl rfl, ?_, ?_, ?_⟩
  · intro hcy
    have hv : (identify_cpu K hw buf cpu).vendor = K.X86_VENDOR_CYRIX := by
      rw [hvend hw rfl rfl, if_pos hcy]
    refine ⟨hv, ?_⟩
    intro zf fl
    have hcy' : (test_cyrix_52div { hw with nexgen_zf := zf, nexgen_eflags := fl }).1 = true :=
      hcy
    rw [identify_cpu_frame K hw buf cpu,
      identify_cpu_frame K { hw with nexgen_zf := zf, nexgen_eflags := fl } buf cpu, hv,
      hvend { hw with nexgen_zf := zf, nexgen_eflags := fl } rfl rfl, if_pos hcy',
      hdev hw rfl rfl, hdev { hw with nexgen_zf := zf, nexgen_eflags := fl } rfl rfl]
  · intro hcy hn
    have hcy' : ¬ (test_cyrix_52div hw).1 = true := by rw [hcy]; simp
    rw [hvend hw rfl rfl, if_neg hcy', if_pos hn]
  · intro hcy hn
    have hcy' : ¬ (test_cyrix_52div hw).1 = true := by rw [hcy]; simp
    have hn' : ¬ (deep_magic_nexgen_probe hw).1 ≠ 0 := fun h => h hn
    rw [hvend hw rfl rfl, if_neg hcy', if_neg hn']

/-- Witness for `legacy_486_probe_order`: a processor with a changeable AC flag
on which both legacy probes are positive. -/
theorem legacy_486_probe_order_witness :
    (identify_cpu sample_consts (sample_hw 0x00040cd5 0 0x0200 true) sample_buffer
      sample_device).vendor = sample_consts.X86_VENDOR_CYRIX :=
  ((legacy_486_probe_order sample_consts (sample_hw 0x00040cd5 0 0x0200 true) sample_buffer
    sample_device (by decide) (by decide) (by decide)).2.1 (by decide)).1

/-- C17. Empty legacy tag: when the identification instruction is unavailable and
neither legacy probe sets a tag, the vendor buffer `identify_cpu` compares is the
buffer it found with byte 0 set to 0 (bytes 1 to 15 are the leftover content);
whatever that content is, the 12-byte comparison fails for every entry of
`x86_vendors` and the vendor code is `X86_VENDOR_UNKNOWN`. -/
theorem empty_legacy_tag (K : Consts) (hw : Hw) (buf : List Nat) (cpu : device)
    (hlen : buf.length = 16)
    (hno : (have_cpuid_p K hw.writable hw.eflags).1 = false)
    (hcy : ¬ ((flag_is_changeable_p hw.writable hw.eflags K.X86_EFLAGS_AC).1 = true ∧
      (test_cyrix_52div hw).1 = true))
    (hng : (deep_magic_nexgen_probe hw).1 = 0) :
    (identify_probe K hw buf cpu).vendor_name = buf.set 0 0 ∧
    (identify_probe K hw buf cpu).vendor_name.head? = some 0 ∧
    (identify_probe K hw buf cpu).vendor_name.drop 1 = buf.drop 1 ∧
    (∀ e ∈ x86_vendors K, memcmp (identify_probe K hw buf cpu).vendor_name e.2 12 ≠ 0) ∧
    (identify_cpu K hw buf cpu).vendor = K.X86_VENDOR_UNKNOWN := by
  have hng' : ¬ (deep_magic_nexgen_probe hw).1 ≠ 0 := fun h => h hng
  have hname : (identify_probe K hw buf cpu).vendor_name = buf.set 0 0 := by
    rw [identify_probe_of_no_cpuid K hw buf cpu hno, identify_legacy_vendor_name, if_neg hcy,
      if_neg hng']
  have hv : (identify_cpu K hw buf cpu).vendor = K.X86_VENDOR_UNKNOWN := by
    rw [identify_cpu_vendor_legacy K hw buf cpu hlen hno, if_neg hcy, if_neg hng']
  obtain ⟨b0, b1, b2, b3, b4, b5, b6, b7, b8, b9, b10, b11, b12, b13, b14, b15, rfl⟩ :=
    length_sixteen buf hlen
  rw [hname]
  exact ⟨rfl, rfl, rfl, memcmp_empty_tag K _, hv⟩

/-- Witness for `empty_legacy_tag`: a processor with a changeable AC flag on which
both legacy probes are negative, and a buffer that still holds the bytes of
"GenuineIntel". -/
theorem empty_legacy_tag_witness :
    (identify_cpu sample_consts (sample_hw 0x00040cd5 0 0 false)
      [0x47, 0x65, 0x6e, 0x75, 0x69, 0x6e, 0x65, 0x49, 0x6e, 0x74, 0x65, 0x6c, 0, 0, 0, 0]
      sample_device).vendor = sample_consts.X86_VENDOR_UNKNOWN :=
  (empty_legacy_tag sample_consts (sample_hw 0x00040cd5 0 0 false)
    [0x47, 0x65, 0x6e, 0x75, 0x69, 0x6e, 0x65, 0x49, 0x6e, 0x74, 0x65, 0x6c, 0, 0, 0, 0]
    sample_device (by decide) (by decide) (by decide) (by decide)).2.2.2.2

/-! ## Lemmas: the display-name table -/

theorem foldl_max_ge (l : List Nat) :
    ∀ a : Nat, a ≤ l.foldl max a ∧ ∀ x ∈ l, x ≤ l.foldl max a := by
  induction l with
  | nil => intro a; simp
  | cons y ys ih =>
    intro a
    obtain ⟨h1, h2⟩ := ih (max a y)
    simp only [List.foldl_cons]
    refine ⟨le_trans (le_max_left a y) h1, ?_⟩
    intro x hx
    rcases List.mem_cons.mp hx with h | h
    · subst h; exact le_trans (le_max_right a x) h1
    · exact h2 x h

/-- In a list with pairwise distinct keys, the search for the key of an element
finds that element. -/
theorem find_key (l : List (Nat × String)) (hn : (l.map Prod.fst).Nodup)
    (e : Nat × String) (he : e ∈ l) :
    l.find? (fun x => decide (x.1 = e.1)) = some e := by
  induction l with
  | nil => simp at he
  | cons x xs ih =>
    simp only [List.map_cons, List.nodup_cons] at hn
    rcases List.mem_cons.mp he with h | h
    · subst h; simp
    · have hne : x.1 ≠ e.1 := by
        intro heq
        exact hn.1 (heq ▸ List.mem_map_of_mem Prod.fst h)
      simp only [List.find?_cons, hne, decide_False]
      exact ih hn.2 h

theorem find_key_none (l : List (Nat × String)) (i : Nat) (h : ∀ e ∈ l, e.1 ≠ i) :
    l.find? (fun x => decide (x.1 = i)) = none := by
  simp only [List.find?_eq_none, decide_eq_true_eq]
  exact h

theorem x86_vendor_name_get (K : Consts) (i : Nat) (h : i < x86_vendor_name_size K) :
    (x86_vendor_name K)[i]? =
      some (((x86_vendor_name_init K).reverse.find? (fun e => decide (e.1 = i))).map Prod.snd) := by
  simp [x86_vendor_name, List.getElem?_map, List.getElem?_range, h]

theorem x86_vendor_name_init_lt (K : Consts) :
    ∀ e ∈ x86_vendor_name_init K, e.1 < x86_vendor_name_size K := by
  intro e he
  have h := (foldl_max_ge ((x86_vendor_name_init K).map Prod.fst) 0).2 e.1
    (List.mem_map_of_mem Prod.fst he)
  unfold x86_vendor_name_size
  omega

theorem to_unsigned_of_nonneg (v : Int) (h0 : 0 ≤ v) (h1 : v < 2 ^ 31) :
    to_unsigned v = v.toNat := by
  unfold to_unsigned
  omega

theorem to_unsigned_of_neg (v : Int) (h0 : v < 0) (h1 : -2 ^ 31 ≤ v) :
    2 ^ 31 ≤ to_unsigned v := by
  unfold to_unsigned
  omega

theorem x86_vendor_name_init_not_placeholder (K : Consts) :
    ∀ e ∈ x86_vendor_name_init K, e.2 ≠ "<invalid cpu vendor>" := by
  simp only [x86_vendor_name_init, List.mem_cons, List.mem_singleton, List.not_mem_nil,
    or_false, forall_eq_or_imp, forall_eq]
  decide

theorem x86_vendors_codes_named (K : Consts) :
    ∀ e ∈ x86_vendors K, ∃ n, (e.1, n) ∈ x86_vendor_name_init K := by
  simp only [x86_vendors, List.mem_cons, List.mem_singleton, List.not_mem_nil,
    or_false, forall_eq_or_imp, forall_eq]
  refine ⟨⟨"Intel", ?_⟩, ⟨"Cyrix", ?_⟩, ⟨"AMD", ?_⟩, ⟨"UMC", ?_⟩, ⟨"NexGen", ?_⟩,
    ⟨"Centaur", ?_⟩, ⟨"Rise", ?_⟩, ⟨"Transmeta", ?_⟩, ⟨"Transmeta", ?_⟩, ⟨"NSC", ?_⟩,
    ⟨"SiS", ?_⟩⟩ <;> simp [x86_vendor_name_init]

/-- The value `cpu_vendor_name` returns for a code that passes the bound test. -/
theorem cpu_vendor_name_in_bounds (K : Consts) (v : Int) (i : Nat) (hv : v.toNat = i)
    (hu : to_unsigned v < x86_vendor_name_size K) (hi : i < x86_vendor_name_size K) :
    cpu_vendor_name K v =
      match ((x86_vendor_name_init K).reverse.find? (fun e => decide (e.1 = i))).map Prod.snd with
      | some s => s
      | none => "<invalid cpu vendor>" := by
  unfold cpu_vendor_name
  rw [if_pos hu, hv, x86_vendor_name_get K i hi]
  cases ((x86_vendor_name_init K).reverse.find? (fun e => decide (e.1 = i))).map Prod.snd <;> rfl

theorem cpu_vendor_name_out_of_bounds (K : Consts) (v : Int)
    (hu : ¬ to_unsigned v < x86_vendor_name_size K) :
    cpu_vendor_name K v = "<invalid cpu vendor>" := by
  unfold cpu_vendor_name
  rw [if_neg hu]

/-! ## Display names -/

/-- C13. For vendor macros that are pairwise distinct `int` values (see
`vendor_codes_ok`): `cpu_vendor_name` returns the placeholder for
`X86_VENDOR_UNKNOWN`, for every `int` outside the bounds of `x86_vendor_name`
(every negative one included, the bound test being unsigned) and for every
in-bounds code that no initializer designates; for each code that appears in
`x86_vendors` it returns the display name that `x86_vendor_name` gives that code,
which is not the placeholder. -/
theorem cpu_vendor_name_lookup (K : Consts) (hK : vendor_codes_ok K) :
    cpu_vendor_name K (K.X86_VENDOR_UNKNOWN : Int) = "<invalid cpu vendor>" ∧
    (x86_vendor_name K).length = x86_vendor_name_size K ∧
    (∀ v : Int, -2 ^ 31 ≤ v → v < 2 ^ 31 → ¬ (0 ≤ v ∧ v < (x86_vendor_name_size K : Int)) →
      cpu_vendor_name K v = "<invalid cpu vendor>") ∧
    (∀ v : Int, -2 ^ 31 ≤ v → v < 0 → cpu_vendor_name K v = "<invalid cpu vendor>") ∧
    (∀ v : Int, 0 ≤ v → v < (x86_vendor_name_size K : Int) →
      (∀ e ∈ x86_vendor_name_init K, (e.1 : Int) ≠ v) →
      cpu_vendor_name K v = "<invalid cpu vendor>") ∧
    (∀ e ∈ x86_vendor_name_init K,
      cpu_vendor_name K (e.1 : Int) = e.2 ∧ e.2 ≠ "<invalid cpu vendor>") ∧
    (∀ e ∈ x86_vendors K, ∃ n, (e.1, n) ∈ x86_vendor_name_init K) := by
  obtain ⟨hnodup, hsize, hunk, hunk31⟩ := hK
  have hout : ∀ v : Int, -2 ^ 31 ≤ v → v < 2 ^ 31 →
      ¬ (0 ≤ v ∧ v < (x86_vendor_name_size K : Int)) →
      cpu_vendor_name K v = "<invalid cpu vendor>" := by
    intro v hlo hhi hnot
    apply cpu_vendor_name_out_of_bounds
    by_cases hv : 0 ≤ v
    · have h1 := to_unsigned_of_nonneg v hv hhi
      have h2 : ¬ v < (x86_vendor_name_size K : Int) := fun h => hnot ⟨hv, h⟩
      omega
    · have h1 := to_unsigned_of_neg v (by omega) hlo
      omega
  have hin : ∀ v : Int, 0 ≤ v → v < (x86_vendor_name_size K : Int) →
      (∀ e ∈ x86_vendor_name_init K, (e.1 : Int) ≠ v) →
      cpu_vendor_name K v = "<invalid cpu vendor>" := by
    intro v h0 hlt hnone
    have hlt' : v.toNat < x86_vendor_name_size K := by omega
    have hu : to_unsigned v < x86_vendor_name_size K := by
      rw [to_unsigned_of_nonneg v h0 (by omega)]; exact hlt'
    have hfind : (x86_vendor_name_init K).reverse.find? (fun e => decide (e.1 = v.toNat)) =
        none := by
      apply find_key_none
      intro e he heq
      exact hnone e (List.mem_reverse.mp he) (by omega)
    rw [cpu_vendor_name_in_bounds K v v.toNat rfl hu hlt', hfind]
    rfl
  refine ⟨?_, by simp [x86_vendor_name], hout, ?_, hin, ?_, x86_vendors_codes_named K⟩
  · by_cases hb : K.X86_VENDOR_UNKNOWN < x86_vendor_name_size K
    · apply hin _ (by omega) (by omega)
      intro e he heq
      have : e.1 = K.X86_VENDOR_UNKNOWN := by omega
      exact hunk (this ▸ List.mem_map_of_mem Prod.fst he)
    · exact hout _ (by omega) (by omega) (by omega)
  · intro v hlo hneg
    exact hout v hlo (by omega) (by omega)
  · intro e he
    have hlt : e.1 < x86_vendor_name_size K := x86_vendor_name_init_lt K e he
    have hu : to_unsigned (e.1 : Int) < x86_vendor_name_size K := by
      rw [to_unsigned_of_nonneg _ (by omega) (by omega)]; simpa using hlt
    have hfind : (x86_vendor_name_init K).reverse.find? (fun x => decide (x.1 = e.1)) =
        some e := by
      apply find_key
      · rw [List.map_reverse]; exact List.nodup_reverse.mpr hnodup
      · exact List.mem_reverse.mpr he
    refine ⟨?_, x86_vendor_name_init_not_placeholder K e he⟩
    rw [cpu_vendor_name_in_bounds K (e.1 : Int) e.1 (by simp) hu hlt, hfind]
    rfl

/-- Witness for `cpu_vendor_name_lookup`: the macro values of the coreboot headers,
with the code `-1`. -/
theorem cpu_vendor_name_lookup_witness :
    cpu_vendor_name sample_consts (-1) = "<invalid cpu vendor>" :=
  (cpu_vendor_name_lookup sample_consts (by decide)).2.2.2.1 (-1) (by decide) (by decide)

/-! ## The flag probe -/

/-- C14. In the model where `popfl` changes exactly the arithmetic flags and
the bits of `writable` (bit `i` of the new flags is bit `i` of the popped value
for these bits, and is unchanged otherwise) and `xorl` writes the arithmetic
flags only: `flag_is_changeable_p` leaves the flags register as it found it,
whatever value `xorl` gives the undefined AF; it returns true exactly when a
targeted bit differs, after the flip attempt, from its value on entry, which is
exactly when a targeted bit is one that `popfl` can change (for a single-bit flag
`2 ^ i`: when bit `i` is such a bit); the result does not depend on the content
of the flags register, so a repeated call returns the same pair; and in
`identify_cpu` the second `have_cpuid_p()` call, made in the state lines 140-159
leave, returns what the first returned. -/
theorem flag_is_changeable_p_pure (K : Consts) (writable eflags flag : Nat) :
    (∀ cur v i : Nat, (popfl writable cur v).testBit i =
      if (writable.testBit i || arith_flags.testBit i) = true then v.testBit i
      else cur.testBit i) ∧
    (∀ (af : Bool) (r i : Nat), arith_flags.testBit i = false →
      (xorl_flags af eflags r).testBit i = eflags.testBit i) ∧
    (∀ af : Bool, flag_is_changeable_p_af af writable eflags flag =
      flag_is_changeable_p writable eflags flag) ∧
    (flag_is_changeable_p writable eflags flag).2 = eflags ∧
    ((flag_is_changeable_p writable eflags flag).1 = true ↔
      (popfl writable (xorl_flags false eflags (eflags ^^^ flag)) (eflags ^^^ flag)
        ^^^ eflags) &&& flag ≠ 0) ∧
    ((flag_is_changeable_p writable eflags flag).1 = true ↔
      flag &&& (writable ||| arith_flags) ≠ 0) ∧
    (∀ i : Nat, (flag_is_changeable_p writable eflags (2 ^ i)).1 =
      (writable.testBit i || arith_flags.testBit i)) ∧
    (∀ eflags' : Nat, (flag_is_changeable_p writable eflags' flag).1 =
      (flag_is_changeable_p writable eflags flag).1) ∧
    flag_is_changeable_p writable (flag_is_changeable_p writable eflags flag).2 flag =
      flag_is_changeable_p writable eflags flag ∧
    (∀ (hw : Hw) (buf : List Nat) (cpu : device),
      identify_probe K hw buf cpu =
        (if (have_cpuid_p K hw.writable (identify_before_second_probe K hw buf cpu).eflags).1
            = true then
          identify_cpuid hw
            { identify_before_second_probe K hw buf cpu with
              eflags := (have_cpuid_p K hw.writable
                (identify_before_second_probe K hw buf cpu).eflags).2 }
        else
          { identify_before_second_probe K hw buf cpu with
            eflags := (have_cpuid_p K hw.writable
              (identify_before_second_probe K hw buf cpu).eflags).2 }) ∧
      (have_cpuid_p K hw.writable (identify_before_second_probe K hw buf cpu).eflags).1 =
        (have_cpuid_p K hw.writable hw.eflags).1) := by
  have hand : ∀ f m : Nat, (f &&& m) &&& f = f &&& m := by
    intro f m
    rw [Nat.and_comm (f &&& m) f, ← Nat.and_assoc, Nat.and_self]
  refine ⟨?_, ?_, ?_, flag_is_changeable_p_snd _ _ _, ?_, ?_, ?_, ?_, ?_, ?_⟩
  · intro cur v i
    simp only [popfl, Nat.testBit_xor, Nat.testBit_and, Nat.testBit_or]
    cases writable.testBit i <;> cases arith_flags.testBit i <;> cases cur.testBit i <;>
      cases v.testBit i <;> rfl
  · intro af r i h
    exact xorl_flags_testBit af eflags r i h
  · intro af
    rw [flag_is_changeable_p, flag_is_changeable_p_af_eq, flag_is_changeable_p_af_eq]
  · simp only [flag_is_changeable_p, flag_is_changeable_p_af, bne_iff_ne]
  · rw [flag_is_changeable_p_fst, hand]
    simp only [bne_iff_ne]
  · intro i
    rw [flag_is_changeable_p_fst, hand, Nat.and_comm, Nat.and_two_pow, Nat.testBit_or]
    cases writable.testBit i <;> cases arith_flags.testBit i <;> simp
  · intro eflags'
    rw [flag_is_changeable_p_fst, flag_is_changeable_p_fst]
  · rw [flag_is_changeable_p_snd]
  · intro hw buf cpu
    exact ⟨rfl, have_cpuid_p_fst_indep K hw.writable _ _⟩

/-- Witness for `flag_is_changeable_p_pure`: on a processor that lets `popfl`
change no bit but the arithmetic flags, the probe of ZF (bit 6) is positive, the
probe of the ID flag (bit 21) is negative, and both leave the flags register
`0x42` as it was. -/
theorem flag_is_changeable_p_pure_witness :
    flag_is_changeable_p 0 0x42 0x40 = (true, 0x42) ∧
    flag_is_changeable_p 0 0x42 0x200000 = (false, 0x42) ∧
    (flag_is_changeable_p 0 0x42 (2 ^ 6)).1 =
      (Nat.testBit 0 6 || arith_flags.testBit 6) :=
  ⟨by decide, by decide, (flag_is_changeable_p_pure sample_consts 0 0x42 0x40).2.2.2.2.2.2.1 6⟩

/-! ## Lemmas: the leaf-0 vendor string -/

theorem shift_and_byte (x k : Nat) : (x >>> k) &&& 0xff = x / 2 ^ k % 256 := by
  rw [Nat.shiftRight_eq_div_pow]
  exact Nat.and_pow_two_sub_one_eq_mod _ 8

theorem le_bytes_le32 (b0 b1 b2 b3 : Nat) (h0 : b0 < 256) (h1 : b1 < 256) (h2 : b2 < 256)
    (h3 : b3 < 256) : le_bytes (le32 b0 b1 b2 b3 % 2 ^ 32) = [b0, b1, b2, b3] := by
  unfold le_bytes le32
  have e0 : (b0 + b1 * 2 ^ 8 + b2 * 2 ^ 16 + b3 * 2 ^ 24) % 2 ^ 32 / 2 ^ 0 % 256 = b0 := by omega
  have e1 : (b0 + b1 * 2 ^ 8 + b2 * 2 ^ 16 + b3 * 2 ^ 24) % 2 ^ 32 / 2 ^ 8 % 256 = b1 := by omega
  have e2 : (b0 + b1 * 2 ^ 8 + b2 * 2 ^ 16 + b3 * 2 ^ 24) % 2 ^ 32 / 2 ^ 16 % 256 = b2 := by omega
  have e3 : (b0 + b1 * 2 ^ 8 + b2 * 2 ^ 16 + b3 * 2 ^ 24) % 2 ^ 32 / 2 ^ 24 % 256 = b3 := by omega
  rw [e0, e1, e2, e3]

theorem le_bytes_injective (x y : Nat) (hx : x < 2 ^ 32) (hy : y < 2 ^ 32)
    (h : le_bytes x = le_bytes y) : x = y := by
  unfold le_bytes at h
  simp only [List.cons.injEq, and_true] at h
  obtain ⟨h0, h1, h2, h3⟩ := h
  omega

/-- The vendor buffer after the cpuid branch, for a buffer of sixteen bytes. -/
theorem identify_cpuid_vendor_name (hw : Hw) (st : IdentifyState)
    (hlen : st.vendor_name.length = 16) :
    (identify_cpuid hw st).vendor_name =
      le_bytes (cpuid hw 0).ebx ++ le_bytes (cpuid hw 0).edx ++ le_bytes (cpuid hw 0).ecx ++
        0 :: st.vendor_name.drop 13 := by
  obtain ⟨b0, b1, b2, b3, b4, b5, b6, b7, b8, b9, b10, b11, b12, b13, b14, b15, h⟩ :=
    length_sixteen st.vendor_name hlen
  simp only [identify_cpuid, h, List.set, shift_and_byte, le_bytes]
  rfl

/-- The first 12 bytes of the vendor buffer when the identification instruction is
available. -/
theorem identify_probe_vendor_string (K : Consts) (hw : Hw) (buf : List Nat) (cpu : device)
    (hlen : buf.length = 16) (hav : (have_cpuid_p K hw.writable hw.eflags).1 = true) :
    (identify_probe K hw buf cpu).vendor_name.take 12 =
      le_bytes (cpuid hw 0).ebx ++ le_bytes (cpuid hw 0).edx ++ le_bytes (cpuid hw 0).ecx := by
  rw [identify_probe_of_cpuid K hw buf cpu hav,
    identify_cpuid_vendor_name hw _ (by simp [hlen])]
  simp [le_bytes]

theorem cpuid_lt (hw : Hw) (op : Nat) :
    (cpuid hw op).eax < 2 ^ 32 ∧ (cpuid hw op).ebx < 2 ^ 32 ∧ (cpuid hw op).ecx < 2 ^ 32 ∧
      (cpuid hw op).edx < 2 ^ 32 := by
  simp only [cpuid]
  refine ⟨?_, ?_, ?_, ?_⟩ <;> exact Nat.mod_lt _ (by decide)

/-! ## The leaf-0 vendor string -/

/-- C15. Leaf-0 layout, with the identification instruction available and a
buffer of sixteen bytes: the first 12 bytes of the vendor buffer are the four
bytes of `ebx`, then of `edx`, then of `ecx`, each least significant byte first
(byte `4 * k + j` is bits `8 * j` to `8 * j + 7` of register `k`); when the three
registers are the little-endian packing of 12 bytes, these 12 bytes are read
back; and two leaf-0 results that give the same 12 bytes have the same `ebx`,
`edx` and `ecx`. -/
theorem leaf0_vendor_string_layout (K : Consts) (hw : Hw) (buf : List Nat) (cpu : device)
    (hlen : buf.length = 16) (hav : (have_cpuid_p K hw.writable hw.eflags).1 = true) :
    (identify_probe K hw buf cpu).vendor_name.take 12 =
      le_bytes (cpuid hw 0).ebx ++ le_bytes (cpuid hw 0).edx ++ le_bytes (cpuid hw 0).ecx ∧
    (∀ k j : Nat, k < 3 → j < 4 →
      ((identify_probe K hw buf cpu).vendor_name.take 12)[4 * k + j]? =
        some (([(cpuid hw 0).ebx, (cpuid hw 0).edx, (cpuid hw 0).ecx][k]?.getD 0)
          / 2 ^ (8 * j) % 256)) ∧
    (∀ b0 b1 b2 b3 b4 b5 b6 b7 b8 b9 b10 b11 : Nat,
      b0 < 256 → b1 < 256 → b2 < 256 → b3 < 256 → b4 < 256 → b5 < 256 → b6 < 256 →
      b7 < 256 → b8 < 256 → b9 < 256 → b10 < 256 → b11 < 256 →
      (hw.cpuid_insn 0).ebx = le32 b0 b1 b2 b3 → (hw.cpuid_insn 0).edx = le32 b4 b5 b6 b7 →
      (hw.cpuid_insn 0).ecx = le32 b8 b9 b10 b11 →
      (identify_probe K hw buf cpu).vendor_name.take 12 =
        [b0, b1, b2, b3, b4, b5, b6, b7, b8, b9, b10, b11]) ∧
    (∀ (hw' : Hw) (buf' : List Nat) (cpu' : device), buf'.length = 16 →
      (have_cpuid_p K hw'.writable hw'.eflags).1 = true →
      (identify_probe K hw' buf' cpu').vendor_name.take 12 =
        (identify_probe K hw buf cpu).vendor_name.take 12 →
      (cpuid hw' 0).ebx = (cpuid hw 0).ebx ∧ (cpuid hw' 0).edx = (cpuid hw 0).edx ∧
        (cpuid hw' 0).ecx = (cpuid hw 0).ecx) := by
  have hname := identify_probe_vendor_string K hw buf cpu hlen hav
  refine ⟨hname, ?_, ?_, ?_⟩
  · intro k j hk hj
    rw [hname]
    interval_cases k <;> interval_cases j <;> rfl
  · intro b0 b1 b2 b3 b4 b5 b6 b7 b8 b9 b10 b11 h0 h1 h2 h3 h4 h5 h6 h7 h8 h9 h10 h11 hb hd hc
    rw [hname]
    have e1 : (cpuid hw 0).ebx = le32 b0 b1 b2 b3 % 2 ^ 32 := by simp only [cpuid, hb]
    have e2 : (cpuid hw 0).edx = le32 b4 b5 b6 b7 % 2 ^ 32 := by simp only [cpuid, hd]
    have e3 : (cpuid hw 0).ecx = le32 b8 b9 b10 b11 % 2 ^ 32 := by simp only [cpuid, hc]
    rw [e1, e2, e3, le_bytes_le32 _ _ _ _ h0 h1 h2 h3, le_bytes_le32 _ _ _ _ h4 h5 h6 h7,
      le_bytes_le32 _ _ _ _ h8 h9 h10 h11]
    rfl
  · intro hw' buf' cpu' hlen' hav' heq
    rw [hname, identify_probe_vendor_string K hw' buf' cpu' hlen' hav'] at heq
    have hsplit : le_bytes (cpuid hw' 0).ebx = le_bytes (cpuid hw 0).ebx ∧
        le_bytes (cpuid hw' 0).edx = le_bytes (cpuid hw 0).edx ∧
        le_bytes (cpuid hw' 0).ecx = le_bytes (cpuid hw 0).ecx := by
      simp only [le_bytes, List.cons_append, List.nil_append, List.cons.injEq, and_true] at heq
      obtain ⟨a0, a1, a2, a3, a4, a5, a6, a7, a8, a9, a10, a11⟩ := heq
      simp only [le_bytes, a0, a1, a2, a3, a4, a5, a6, a7, a8, a9, a10, a11, and_self]
    exact ⟨le_bytes_injective _ _ (cpuid_lt hw' 0).2.1 (cpuid_lt hw 0).2.1 hsplit.1,
      le_bytes_injective _ _ (cpuid_lt hw' 0).2.2.2 (cpuid_lt hw 0).2.2.2 hsplit.2.1,
      le_bytes_injective _ _ (cpuid_lt hw' 0).2.2.1 (cpuid_lt hw 0).2.2.1 hsplit.2.2⟩

/-- Witness for `leaf0_vendor_string_layout`: the registers that pack the bytes of
"GenuineIntel". -/
theorem leaf0_vendor_string_layout_witness :
    (identify_probe sample_consts (sample_hw 0x00240000 2 0 false) sample_buffer
      sample_device).vendor_name.take 12 =
      [0x47, 0x65, 0x6e, 0x75, 0x69, 0x6e, 0x65, 0x49, 0x6e, 0x74, 0x65, 0x6c] :=
  (leaf0_vendor_string_layout sample_consts (sample_hw 0x00240000 2 0 false) sample_buffer
    sample_device (by decide) (by decide)).2.2.1
    0x47 0x65 0x6e 0x75 0x69 0x6e 0x65 0x49 0x6e 0x74 0x65 0x6c
    (by decide) (by decide) (by decide) (by decide) (by decide) (by decide)
    (by decide) (by decide) (by decide) (by decide) (by decide) (by decide)
    (by decide) (by decide) (by decide)

/-! ## Lemmas: the init call -/

theorem find_driver_found (K : Consts) (cpu : device) (a : cpu_driver) :
    ∀ (drivers : List cpu_driver), find_driver K cpu drivers = Search.found a →
      a ∈ drivers ∧ has_match K cpu.vendor cpu.device a.id_table = true := by
  intro drivers
  induction drivers with
  | nil => intro h; simp [find_driver] at h
  | cons d rest ih =>
    intro h
    cases hs : scan_id_table K cpu d.id_table with
    | found =>
      simp only [find_driver, hs, Search.found.injEq] at h
      subst h
      refine ⟨List.mem_cons_self _ _, ?_⟩
      by_contra hm
      rw [scan_id_table_eq, if_neg hm] at hs
      split_ifs at hs
    | overrun => simp [find_driver, hs] at h
    | sentinel =>
      simp only [find_driver, hs] at h
      exact ⟨List.mem_cons_of_mem _ (ih h).1, (ih h).2⟩

/-- The init events of `cpu_initialize_body`: either dispatch bound the operations
of a matching driver and the one init call follows `set_cpu_ops`, or there is no
init call. -/
theorem body_init_event (K : Consts) (env : Env) (hw : Hw) (buf : List Nat) (cpu : device) :
    (∃ a ∈ env.cpu_drivers,
      has_match K (identify_cpu K hw buf cpu).vendor (identify_cpu K hw buf cpu).device
        a.id_table = true ∧
      a.ops ≠ 0 ∧ (env.ops_at a.ops).init ≠ 0 ∧
      set_cpu_ops K env.cpu_drivers (identify_cpu K hw buf cpu) =
        { exit := Exit.returned, cpu := some { identify_cpu K hw buf cpu with ops := a.ops },
          trace := [] } ∧
      cpu_initialize_body K env hw buf cpu =
        { exit := Exit.returned,
          cpu := some (env.call_init (env.ops_at a.ops).init
            { identify_cpu K hw buf cpu with ops := a.ops, enabled := true, initialized := true }),
          trace := body_calls ++
            [Event.init (env.ops_at a.ops).init
              { identify_cpu K hw buf cpu with
                ops := a.ops, enabled := true, initialized := true },
             Event.printk_info] }) ∨
    (∀ fn d, Event.init fn d ∉ (cpu_initialize_body K env hw buf cpu).trace) := by
  cases hf : find_driver K { identify_cpu K hw buf cpu with ops := 0 } env.cpu_drivers with
  | found a =>
    obtain ⟨hmem, hm⟩ := find_driver_found K _ a _ hf
    have hr := set_cpu_ops_of_found K env.cpu_drivers (identify_cpu K hw buf cpu) a hf
    rw [body_of_returned K env hw buf cpu _ hr]
    by_cases hc : a.ops ≠ 0 ∧ (env.ops_at a.ops).init ≠ 0
    · left
      rw [if_pos hc]
      exact ⟨a, hmem, hm, hc.1, hc.2, hr, rfl⟩
    · right
      rw [if_neg hc]
      intro fn d
      simp [body_calls]
  | exhausted =>
    right
    rw [body_of_died K env hw buf cpu _ (set_cpu_ops_of_none K _ _ hf)]
    intro fn d
    simp [body_calls]
  | overrun =>
    right
    have hr : set_cpu_ops K env.cpu_drivers (identify_cpu K hw buf cpu) =
        { exit := Exit.out_of_bounds, cpu := some { identify_cpu K hw buf cpu with ops := 0 },
          trace := [] } := by
      simp only [set_cpu_ops, hf]
    rw [body_of_out_of_bounds K env hw buf cpu _ hr]
    intro fn d
    simp [body_calls]

/-! ## The init call -/

/-- C16. In every run of `cpu_initialize` at most one init entry point is called.
When one is called, the device record is present, `set_cpu_ops` has returned
after binding the operations of a driver that lists the identified
(vendor, device), the entry point is the non-null `init` of these non-null
operations, the call comes right after `set_cpu_ops` in the order of calls, and
the record it receives is the identified record with `ops` bound and `enabled`
and `initialized` both set. -/
theorem init_called_once (K : Consts) (smp : Bool) (env : Env) (hw : Hw) (buf : List Nat)
    (info : cpu_info) :
    ( cpu_initialize K smp env hw buf info).trace.countP is_init ≤ 1 ∧
    ∀ fn d, Event.init fn d ∈ ( cpu_initialize K smp env hw buf info).trace →
      ∃ (cpu : device) (a : cpu_driver) (pre : List Event),
        info.cpu = some cpu ∧ a ∈ env.cpu_drivers ∧
        has_match K (identify_cpu K hw buf cpu).vendor (identify_cpu K hw buf cpu).device
          a.id_table = true ∧
        set_cpu_ops K env.cpu_drivers (identify_cpu K hw buf cpu) =
          { exit := Exit.returned, cpu := some { identify_cpu K hw buf cpu with ops := a.ops },
            trace := [] } ∧
        a.ops ≠ 0 ∧ fn = (env.ops_at a.ops).init ∧ fn ≠ 0 ∧
        d = { identify_cpu K hw buf cpu with
              ops := a.ops, enabled := true, initialized := true } ∧
        d.enabled = true ∧ d.initialized = true ∧ d.ops = a.ops ∧
        d.vendor = (identify_cpu K hw buf cpu).vendor ∧
        d.device = (identify_cpu K hw buf cpu).device ∧
        ( cpu_initialize K smp env hw buf info).trace =
          pre ++ [Event.set_cpu_ops, Event.init fn d, Event.printk_info] ∧
        (∀ e ∈ pre, is_init e = false) ∧
        ( cpu_initialize K smp env hw buf info).exit = Exit.returned := by
  obtain ⟨index, c⟩ := info
  cases c with
  | none =>
    have h : cpu_initialize K smp env hw buf ⟨index, none⟩ =
        { exit := Exit.died "CPU: missing cpu device structure", cpu := none,
          trace := [Event.printk_notice, Event.die "CPU: missing cpu device structure"] } := rfl
    rw [h]
    exact ⟨by decide, fun fn d hmem => by simp at hmem⟩
  | some cpu =>
    by_cases hg : smp = true → cpu.apic_id = lapicid hw
    · rw [cpu_initialize_of_guard K smp env hw buf index cpu hg]
      rcases body_init_event K env hw buf cpu with ⟨a, hmem, hm, hops, hinit, hr, hb⟩ | hnone
      · rw [hb]
        constructor
        · cases smp <;> simp [body_calls, is_init]
        · intro fn d hin
          have hfd : fn = (env.ops_at a.ops).init ∧
              d = { identify_cpu K hw buf cpu with
                    ops := a.ops, enabled := true, initialized := true } := by
            cases smp <;> simpa [body_calls] using hin
          obtain ⟨hfn, hd⟩ := hfd
          subst hfn
          subst hd
          refine ⟨cpu, a, (if smp = true then [Event.printk_notice, Event.lapicid]
              else [Event.printk_notice]) ++
              [Event.identify_cpu, Event.printk_debug, Event.get_fms, Event.printk_debug],
            rfl, hmem, hm, hr, hops, rfl, hinit, rfl, rfl, rfl, rfl, rfl, rfl, ?_, ?_, rfl⟩
          · simp [body_calls]
          · intro e he
            cases smp
            · simp only [Bool.false_eq_true, if_false, List.cons_append, List.nil_append,
                List.mem_cons, List.mem_singleton, List.not_mem_nil, or_false] at he
              rcases he with h | h | h | h | h <;> (subst h; rfl)
            · simp only [if_true, List.cons_append, List.nil_append,
                List.mem_cons, List.mem_singleton, List.not_mem_nil, or_false] at he
              rcases he with h | h | h | h | h | h <;> (subst h; rfl)
      · constructor
        · have h0 : ∀ l : List Event, (∀ fn d, Event.init fn d ∉ l) →
              l.countP is_init = 0 := by
            intro l hl
            rw [List.countP_eq_zero]
            intro e he
            cases e with
            | init fn d => exact absurd he (hl fn d)
            | _ => simp [is_init]
          have hb0 := h0 _ hnone
          cases smp <;> simp [List.countP_append, hb0, is_init, List.countP_cons]
        · intro fn d hin
          exfalso
          have : Event.init fn d ∈ (cpu_initialize_body K env hw buf cpu).trace := by
            cases smp <;> simpa using hin
          exact hnone fn d this
    · have hs : smp = true := by
        by_contra h
        exact hg (fun h' => absurd h' h)
      have hmis : cpu.apic_id ≠ lapicid hw := fun h => hg (fun _ => h)
      subst hs
      have h : cpu_initialize K true env hw buf ⟨index, some cpu⟩ =
          { exit := Exit.returned, cpu := some cpu,
            trace := [Event.printk_notice, Event.lapicid, Event.lapicid, Event.printk_err] } := by
        simp [ cpu_initialize, hmis]
      rw [h]
      exact ⟨by simp [is_init], fun fn d hmem => by simp at hmem⟩

/-- Witness for `init_called_once`: the run in which the second sample driver is
bound and its init entry point `0x2000` is called. -/
theorem init_called_once_witness :
    Event.init 0x2000
        { apic_id := 0, vendor := 1, device := 0x00000673, ops := 0x1000, enabled := true,
          initialized := true } ∈
      ( cpu_initialize sample_consts true sample_env (sample_hw 0x00240000 2 0 false)
        sample_buffer ⟨0, some sample_device⟩).trace ∧
    ( cpu_initialize sample_consts true sample_env (sample_hw 0x00240000 2 0 false)
      sample_buffer ⟨0, some sample_device⟩).trace.countP is_init ≤ 1 :=
  ⟨by decide, (init_called_once sample_consts true sample_env (sample_hw 0x00240000 2 0 false)
    sample_buffer ⟨0, some sample_device⟩).1⟩

/-! ## The maximum leaf as a signed integer -/

/-- The value of `cpuid_level` and the device signature when the identification
instruction is available. -/
theorem identify_cpuid_level_device (K : Consts) (hw : Hw) (buf : List Nat) (cpu : device)
    (hav : (have_cpuid_p K hw.writable hw.eflags).1 = true) :
    (identify_probe K hw buf cpu).cpuid_level = to_int (cpuid hw 0).eax ∧
    (identify_cpu K hw buf cpu).device =
      if to_int (cpuid hw 0).eax ≥ 1 then cpuid_eax hw 1 else 0x00000400 := by
  rw [identify_cpu_device, identify_probe_of_cpuid K hw buf cpu hav]
  refine ⟨rfl, ?_⟩
  simp only [identify_cpuid]
  split_ifs <;> rfl

/-- C18. Signed reading of the maximum leaf, with the identification instruction
available: for a leaf-0 `eax` from `0x80000000` to `0xffffffff` the variable
`cpuid_level` is `eax - 2 ^ 32`, a negative number, and the device signature is
`0x00000400`; for a leaf-0 `eax` from 1 to `0x7fffffff` the variable
`cpuid_level` is `eax` and the device signature is the `eax` result of leaf 1. -/
theorem cpuid_level_signed (K : Consts) (hw : Hw) (buf : List Nat) (cpu : device)
    (hav : (have_cpuid_p K hw.writable hw.eflags).1 = true) :
    (0x80000000 ≤ (hw.cpuid_insn 0).eax → (hw.cpuid_insn 0).eax ≤ 0xffffffff →
      (identify_probe K hw buf cpu).cpuid_level = ((hw.cpuid_insn 0).eax : Int) - 2 ^ 32 ∧
      (identify_probe K hw buf cpu).cpuid_level < 0 ∧
      (identify_cpu K hw buf cpu).device = 0x00000400) ∧
    (1 ≤ (hw.cpuid_insn 0).eax → (hw.cpuid_insn 0).eax ≤ 0x7fffffff →
      (identify_probe K hw buf cpu).cpuid_level = ((hw.cpuid_insn 0).eax : Int) ∧
      (identify_cpu K hw buf cpu).device = cpuid_eax hw 1) := by
  obtain ⟨hlevel, hdev⟩ := identify_cpuid_level_device K hw buf cpu hav
  have heax : (cpuid hw 0).eax = (hw.cpuid_insn 0).eax % 2 ^ 32 := rfl
  rw [hlevel, hdev, heax]
  constructor
  · intro h1 h2
    have hto : to_int ((hw.cpuid_insn 0).eax % 2 ^ 32) = ((hw.cpuid_insn 0).eax : Int) - 2 ^ 32 := by
      unfold to_int
      split_ifs <;> omega
    rw [hto]
    refine ⟨rfl, by omega, ?_⟩
    rw [if_neg (by omega)]
  · intro h1 h2
    have hto : to_int ((hw.cpuid_insn 0).eax % 2 ^ 32) = ((hw.cpuid_insn 0).eax : Int) := by
      unfold to_int
      split_ifs <;> omega
    rw [hto]
    refine ⟨rfl, ?_⟩
    rw [if_pos (by omega)]

/-- Witness for `cpuid_level_signed`: a processor whose leaf 0 reports
`eax = 0x80000001`. -/
theorem cpuid_level_signed_witness :
    (identify_cpu sample_consts (sample_hw 0x00240000 0x80000001 0 false) sample_buffer
      sample_device).device = 0x00000400 :=
  ((cpuid_level_signed sample_consts (sample_hw 0x00240000 0x80000001 0 false) sample_buffer
    sample_device (by decide)).1 (by decide) (by decide)).2.2

/-! ## Lemmas: the sentinel -/

theorem scan_id_table_after_sentinel (K : Consts) (cpu : device) (s : cpu_device_id)
    (post : List cpu_device_id) (hs : s.vendor = K.X86_VENDOR_INVALID) :
    ∀ pre : List cpu_device_id,
      scan_id_table K cpu (pre ++ s :: post) = scan_id_table K cpu (pre ++ [s]) := by
  intro pre
  induction pre with
  | nil => simp [scan_id_table, hs]
  | cons x xs ih =>
    have h1 : scan_id_table K cpu (x :: xs ++ s :: post) =
        if x.vendor ≠ K.X86_VENDOR_INVALID then
          if cpu.vendor = x.vendor ∧ cpu.device = x.device then Scan.found
          else scan_id_table K cpu (xs ++ s :: post)
        else Scan.sentinel := rfl
    have h2 : scan_id_table K cpu (x :: xs ++ [s]) =
        if x.vendor ≠ K.X86_VENDOR_INVALID then
          if cpu.vendor = x.vendor ∧ cpu.device = x.device then Scan.found
          else scan_id_table K cpu (xs ++ [s])
        else Scan.sentinel := rfl
    rw [h1, h2, ih]

theorem set_cpu_ops_cons (K : Consts) (d : cpu_driver) (rest : List cpu_driver) (cpu : device) :
    set_cpu_ops K (d :: rest) cpu =
      match scan_id_table K { cpu with ops := 0 } d.id_table with
      | Scan.found =>
        { exit := Exit.returned, cpu := some { cpu with ops := d.ops }, trace := [] }
      | Scan.sentinel => set_cpu_ops K rest cpu
      | Scan.overrun =>
        { exit := Exit.out_of_bounds, cpu := some { cpu with ops := 0 }, trace := [] } := by
  simp only [set_cpu_ops, find_driver]
  cases scan_id_table K { cpu with ops := 0 } d.id_table <;> rfl

/-- Replacing a driver by one with the same operations and the same scan result
does not change what `set_cpu_ops` does. -/
theorem set_cpu_ops_congr (K : Consts) (cpu : device) (a a' : cpu_driver)
    (l2 : List cpu_driver) (hops : a.ops = a'.ops)
    (hscan : scan_id_table K { cpu with ops := 0 } a.id_table =
      scan_id_table K { cpu with ops := 0 } a'.id_table) :
    ∀ l1 : List cpu_driver,
      set_cpu_ops K (l1 ++ a :: l2) cpu = set_cpu_ops K (l1 ++ a' :: l2) cpu := by
  intro l1
  induction l1 with
  | nil => simp only [List.nil_append, set_cpu_ops_cons, hops, hscan]
  | cons x xs ih => simp only [List.cons_append, set_cpu_ops_cons, ih]

theorem has_match_invalid (K : Consts) (dev : Nat) (id_table : List cpu_device_id) :
    has_match K K.X86_VENDOR_INVALID dev id_table = false := by
  simp only [has_match, before_sentinel, List.any_eq_false, decide_eq_true_eq, not_and]
  intro id hid hv
  have := List.mem_takeWhile_imp hid
  simp only [ne_eq, decide_not, Bool.not_eq_true', decide_eq_false_iff_not] at this
  exact absurd hv this

/-! ## The sentinel -/

/-- C19. Sentinel handling in `set_cpu_ops`: what stands in an `id_table` after its
first `X86_VENDOR_INVALID` entry has no influence on the run; and for an identity
whose vendor code is `X86_VENDOR_INVALID` no table has a match and no scan ends
with `found`, so the run never returns normally and, on a registry of
sentinel-terminated tables, ends in `die("Unknown cpu")`. -/
theorem sentinel_handling (K : Consts) (cpu : device) :
    (∀ (l1 l2 : List cpu_driver) (ops : Nat) (pre post : List cpu_device_id)
      (s : cpu_device_id), s.vendor = K.X86_VENDOR_INVALID →
      set_cpu_ops K (l1 ++ { ops := ops, id_table := pre ++ s :: post } :: l2) cpu =
        set_cpu_ops K (l1 ++ { ops := ops, id_table := pre ++ [s] } :: l2) cpu) ∧
    (cpu.vendor = K.X86_VENDOR_INVALID →
      (∀ id_table : List cpu_device_id,
        has_match K cpu.vendor cpu.device id_table = false ∧
        scan_id_table K { cpu with ops := 0 } id_table ≠ Scan.found) ∧
      (∀ drivers : List cpu_driver, (set_cpu_ops K drivers cpu).exit ≠ Exit.returned) ∧
      (∀ drivers : List cpu_driver, registry_ok K drivers →
        set_cpu_ops K drivers cpu =
          { exit := Exit.died "Unknown cpu", cpu := some { cpu with ops := 0 },
            trace := [Event.die "Unknown cpu"] })) := by
  constructor
  · intro l1 l2 ops pre post s hs
    exact set_cpu_ops_congr K cpu { ops := ops, id_table := pre ++ s :: post }
      { ops := ops, id_table := pre ++ [s] } l2 rfl
      (scan_id_table_after_sentinel K _ s post hs pre) l1
  · intro hv
    have hm : ∀ id_table : List cpu_device_id,
        has_match K cpu.vendor cpu.device id_table = false := by
      intro id_table
      rw [hv]
      exact has_match_invalid K _ _
    have hscan : ∀ id_table : List cpu_device_id,
        scan_id_table K { cpu with ops := 0 } id_table ≠ Scan.found := by
      intro id_table
      rw [scan_id_table_eq]
      have h0 : has_match K ({ cpu with ops := 0 } : device).vendor
          ({ cpu with ops := 0 } : device).device id_table = false := hm id_table
      rw [h0]
      simp only [Bool.false_eq_true, if_false]
      split_ifs <;> simp
    refine ⟨fun t => ⟨hm t, hscan t⟩, ?_, ?_⟩
    · intro drivers
      induction drivers with
      | nil => simp [set_cpu_ops, find_driver]
      | cons d rest ih =>
        rw [set_cpu_ops_cons]
        cases hsc : scan_id_table K { cpu with ops := 0 } d.id_table with
        | found => exact absurd hsc (hscan _)
        | sentinel => exact ih
        | overrun => simp
    · intro drivers hok
      exact set_cpu_ops_of_none K drivers cpu
        (find_driver_no_match K { cpu with ops := 0 } drivers hok (fun d _ => hm d.id_table))

/-- Witness for `sentinel_handling`: an identity with the sentinel vendor code 0
and a driver that lists (0, 0x00000673) as its first entry. -/
theorem sentinel_handling_witness :
    set_cpu_ops sample_consts [{ ops := 0x1000, id_table := [⟨0, 0x00000673⟩, ⟨0, 0⟩] }]
      { sample_device with vendor := 0, device := 0x00000673 } =
      { exit := Exit.died "Unknown cpu",
        cpu := some { sample_device with vendor := 0, device := 0x00000673, ops := 0 },
        trace := [Event.die "Unknown cpu"] } :=
  (sentinel_handling sample_consts { sample_device with vendor := 0, device := 0x00000673 }).2
    rfl |>.2.2 [{ ops := 0x1000, id_table := [⟨0, 0x00000673⟩, ⟨0, 0⟩] }] (by decide)

/-! ## Lemmas: identify_cpu as a function of the probes -/

theorem vendor_loop_range (vendor_name : List Nat) (v : Nat) :
    ∀ tbl : List (Nat × List Nat),
      vendor_loop vendor_name tbl v = v ∨ ∃ e ∈ tbl, vendor_loop vendor_name tbl v = e.1 := by
  intro tbl
  induction tbl with
  | nil => left; rfl
  | cons x rest ih =>
    by_cases hx : memcmp vendor_name x.2 12 = 0
    · right
      exact ⟨x, List.mem_cons_self _ _, by simp only [vendor_loop, hx, if_true]⟩
    · simp only [vendor_loop, hx, if_false]
      rcases ih with h | ⟨e, he, h⟩
      · exact Or.inl h
      · exact Or.inr ⟨e, List.mem_cons_of_mem _ he, h⟩

/-- The table loop looks at the first 12 bytes of the buffer only. -/
theorem vendor_loop_take (a b : List Nat) (v : Nat) (ha : 12 ≤ a.length) (hb : 12 ≤ b.length)
    (hab : a.take 12 = b.take 12) :
    ∀ tbl : List (Nat × List Nat), (∀ e ∈ tbl, 12 ≤ e.2.length) →
      vendor_loop a tbl v = vendor_loop b tbl v := by
  intro tbl
  induction tbl with
  | nil => intro _; rfl
  | cons x rest ih =>
    intro hl
    have hx : 12 ≤ x.2.length := hl x (List.mem_cons_self _ _)
    have hiff : memcmp a x.2 12 = 0 ↔ memcmp b x.2 12 = 0 := by
      rw [memcmp_eq_zero_iff 12 a x.2 ha hx, memcmp_eq_zero_iff 12 b x.2 hb hx, hab]
    have hrest := ih (fun e he => hl e (List.mem_cons_of_mem _ he))
    by_cases h : memcmp a x.2 12 = 0
    · simp only [vendor_loop, h, hiff.mp h, if_true]
    · have h' : ¬ memcmp b x.2 12 = 0 := fun hb0 => h (hiff.mpr hb0)
      simp only [vendor_loop, h, h', if_false, hrest]

/-- The vendor code `identify_cpu` stores when the identification instruction is
available, for a buffer of sixteen bytes. -/
theorem identify_cpu_vendor_cpuid (K : Consts) (hw : Hw) (buf : List Nat) (cpu : device)
    (hlen : buf.length = 16) (hav : (have_cpuid_p K hw.writable hw.eflags).1 = true) :
    (identify_cpu K hw buf cpu).vendor =
      vendor_loop
        (le_bytes (cpuid hw 0).ebx ++ le_bytes (cpuid hw 0).edx ++ le_bytes (cpuid hw 0).ecx)
        (x86_vendors K) K.X86_VENDOR_UNKNOWN := by
  have hv : (identify_cpu K hw buf cpu).vendor =
      vendor_loop (identify_probe K hw buf cpu).vendor_name (x86_vendors K)
        K.X86_VENDOR_UNKNOWN := rfl
  have hname : (identify_probe K hw buf cpu).vendor_name =
      le_bytes (cpuid hw 0).ebx ++ le_bytes (cpuid hw 0).edx ++ le_bytes (cpuid hw 0).ecx ++
        0 :: (buf.set 0 0).drop 13 := by
    rw [identify_probe_of_cpuid K hw buf cpu hav]
    exact identify_cpuid_vendor_name hw _ (by simp [hlen])
  rw [hv, hname]
  apply vendor_loop_take _ _ _ _ _ _ _ (x86_vendors_names_length K)
  · simp [le_bytes]
  · simp [le_bytes]
  · simp [le_bytes]

/-- The vendor code and device signature `identify_cpu` stores depend on the
processor through its probe results only. -/
theorem identify_cpu_of_probe_outcome (K : Consts) (hw hw' : Hw) (buf buf' : List Nat)
    (cpu cpu' : device) (hlen : buf.length = 16) (hlen' : buf'.length = 16)
    (h : probe_outcome K hw' = probe_outcome K hw) :
    (identify_cpu K hw' buf' cpu').vendor = (identify_cpu K hw buf cpu).vendor ∧
    (identify_cpu K hw' buf' cpu').device = (identify_cpu K hw buf cpu).device := by
  have h1 : (have_cpuid_p K hw'.writable hw'.eflags).1 = (have_cpuid_p K hw.writable hw.eflags).1 :=
    congrArg ProbeOutcome.have_cpuid h
  have h2 : (flag_is_changeable_p hw'.writable hw'.eflags K.X86_EFLAGS_AC).1 =
      (flag_is_changeable_p hw.writable hw.eflags K.X86_EFLAGS_AC).1 :=
    congrArg ProbeOutcome.ac_changeable h
  have h3 : (test_cyrix_52div hw').1 = (test_cyrix_52div hw).1 := congrArg ProbeOutcome.cyrix h
  have h4 : (deep_magic_nexgen_probe hw').1 = (deep_magic_nexgen_probe hw).1 :=
    congrArg ProbeOutcome.nexgen h
  have h5 : cpuid hw' 0 = cpuid hw 0 := congrArg ProbeOutcome.leaf0 h
  have h6 : cpuid_eax hw' 1 = cpuid_eax hw 1 := congrArg ProbeOutcome.leaf1_eax h
  by_cases hav : (have_cpuid_p K hw.writable hw.eflags).1 = true
  · have hav' : (have_cpuid_p K hw'.writable hw'.eflags).1 = true := h1.trans hav
    rw [identify_cpu_vendor_cpuid K hw buf cpu hlen hav,
      identify_cpu_vendor_cpuid K hw' buf' cpu' hlen' hav',
      (identify_cpuid_level_device K hw buf cpu hav).2,
      (identify_cpuid_level_device K hw' buf' cpu' hav').2, h5, h6]
    exact ⟨rfl, rfl⟩
  · have hno : (have_cpuid_p K hw.writable hw.eflags).1 = false := by simpa using hav
    have hno' : (have_cpuid_p K hw'.writable hw'.eflags).1 = false := h1.trans hno
    rw [identify_cpu_vendor_legacy K hw buf cpu hlen hno,
      identify_cpu_vendor_legacy K hw' buf' cpu' hlen' hno',
      identify_cpu_device_legacy K hw buf cpu hno,
      identify_cpu_device_legacy K hw' buf' cpu' hno', h2, h3, h4]
    exact ⟨rfl, rfl⟩

/-! ## identify_cpu as a function of the probes -/

/-- C20. The function `identify_cpu` is total; for a buffer of sixteen bytes, the
vendor code and the device signature it stores are the same for every prior
content of the record and of the buffer, and the same on two processors whose
probes return the same results; the vendor code is `X86_VENDOR_UNKNOWN` or a code
listed in `x86_vendors`; and `ops`, `enabled`, `initialized` (and the APIC id)
are left as they were. -/
theorem identify_cpu_determined (K : Consts) (hw : Hw) (buf : List Nat) (cpu : device)
    (hlen : buf.length = 16) :
    (identify_cpu K hw buf cpu).ops = cpu.ops ∧
    (identify_cpu K hw buf cpu).enabled = cpu.enabled ∧
    (identify_cpu K hw buf cpu).initialized = cpu.initialized ∧
    (identify_cpu K hw buf cpu).apic_id = cpu.apic_id ∧
    ((identify_cpu K hw buf cpu).vendor = K.X86_VENDOR_UNKNOWN ∨
      ∃ e ∈ x86_vendors K, (identify_cpu K hw buf cpu).vendor = e.1) ∧
    (∀ (buf' : List Nat) (cpu' : device), buf'.length = 16 →
      (identify_cpu K hw buf' cpu').vendor = (identify_cpu K hw buf cpu).vendor ∧
      (identify_cpu K hw buf' cpu').device = (identify_cpu K hw buf cpu).device) ∧
    (∀ (hw' : Hw) (buf' : List Nat) (cpu' : device), buf'.length = 16 →
      probe_outcome K hw' = probe_outcome K hw →
      (identify_cpu K hw' buf' cpu').vendor = (identify_cpu K hw buf cpu).vendor ∧
      (identify_cpu K hw' buf' cpu').device = (identify_cpu K hw buf cpu).device) := by
  have hframe := identify_cpu_frame K hw buf cpu
  refine ⟨by rw [hframe], by rw [hframe], by rw [hframe], by rw [hframe], ?_, ?_, ?_⟩
  · exact vendor_loop_range _ _ _
  · intro buf' cpu' hlen'
    exact identify_cpu_of_probe_outcome K hw hw buf buf' cpu cpu' hlen hlen' rfl
  · intro hw' buf' cpu' hlen' h
    exact identify_cpu_of_probe_outcome K hw hw' buf buf' cpu cpu' hlen hlen' h

/-- Witness for `identify_cpu_determined`: the same processor, once with the sample
record and buffer and once with a record and a buffer of other content. -/
theorem identify_cpu_determined_witness :
    (identify_cpu sample_consts (sample_hw 0x00040cd5 0 0x0200 true)
      [0x47, 0x65, 0x6e, 0x75, 0x69, 0x6e, 0x65, 0x49, 0x6e, 0x74, 0x65, 0x6c, 0, 0, 0, 0]
      { apic_id := 0, vendor := 1, device := 0x00000673, ops := 0, enabled := true,
        initialized := true }).vendor =
      (identify_cpu sample_consts (sample_hw 0x00040cd5 0 0x0200 true) sample_buffer
        sample_device).vendor :=
  ((identify_cpu_determined sample_consts (sample_hw 0x00040cd5 0 0x0200 true) sample_buffer
    sample_device (by decide)).2.2.2.2.2.1
    [0x47, 0x65, 0x6e, 0x75, 0x69, 0x6e, 0x65, 0x49, 0x6e, 0x74, 0x65, 0x6c, 0, 0, 0, 0]
    { apic_id := 0, vendor := 1, device := 0x00000673, ops := 0, enabled := true,
      initialized := true } (by decide)).1

end I386Cpu
